import Mathlib

/-!
Verification development for the mesh_analyzer RF engine.

The definitions below are shallow embeddings of the Python sources:
  - rf_physics.py      (haversine_distance, generate_profile,
                        calculate_fresnel_zone, analyze_link, calculate_itm_loss)
  - network_planner.py (NetworkPlanner.optimize_sites)
  - rf_worker.py       (optimize_location_task, the sieve)
  - tile_manager.py    (TileManager.get_elevation, _extract_elevation_from_tile)
Python floats are modelled as real numbers (exact rationals where the code is
purely rational), numpy arrays as lists or index functions, and fallible code
as Option/Except values.
-/

/-! ## rf_physics.py -/

/-- Constant EARTH_RADIUS_KM = 6371.0 from rf_physics.py. -/
def EARTH_RADIUS_KM : ℝ := 6371

/-- Python math.radians. -/
noncomputable def radians (x : ℝ) : ℝ := x * Real.pi / 180

/-- Python math.atan2 (y, x), branch for branch. -/
noncomputable def atan2 (y x : ℝ) : ℝ :=
  if 0 < x then Real.arctan (y / x)
  else if x < 0 then
    (if 0 ≤ y then Real.arctan (y / x) + Real.pi else Real.arctan (y / x) - Real.pi)
  else if 0 < y then Real.pi / 2
  else if y < 0 then -(Real.pi / 2)
  else 0

/-- haversine_distance from rf_physics.py: great-circle distance in meters on
a sphere of radius EARTH_RADIUS_KM * 1000. -/
noncomputable def haversine_distance (lat1 lon1 lat2 lon2 : ℝ) : ℝ :=
  let R := EARTH_RADIUS_KM * 1000
  let phi1 := radians lat1
  let phi2 := radians lat2
  let dphi := radians (lat2 - lat1)
  let dlambda := radians (lon2 - lon1)
  let a := Real.sin (dphi / 2) ^ 2 +
    Real.cos phi1 * Real.cos phi2 * Real.sin (dlambda / 2) ^ 2
  let c := 2 * atan2 (Real.sqrt a) (Real.sqrt (1 - a))
  R * c

/-- Element i of np.linspace a b n (n points from a to b inclusive;
for n = 1 numpy returns [a], and n = 0 yields no elements so the value is
irrelevant). -/
noncomputable def linspaceAt (a b : ℝ) (n i : ℕ) : ℝ :=
  if n ≤ 1 then a else a + (b - a) * i / ((n : ℝ) - 1)

/-- num_points = max(2, int(dist_m / step_meters)) with step_meters = 30,
from generate_profile (dist_m is nonnegative, so Python int() is floor). -/
noncomputable def numPoints (dist_m : ℝ) : ℕ :=
  max 2 (Int.toNat ⌊dist_m / 30⌋)

/-- The elevations list built by generate_profile in its non-degenerate
branch: the elevation source sampled along np.linspace of the coordinates. -/
noncomputable def profilePoints (getElev : ℝ → ℝ → ℝ) (lat1 lon1 lat2 lon2 : ℝ)
    (n : ℕ) : List ℝ :=
  (List.range n).map (fun i => getElev (linspaceAt lat1 lat2 n i) (linspaceAt lon1 lon2 n i))

/-- generate_profile from rf_physics.py: returns (elevations, dist_m);
a zero distance returns the single sample at the first endpoint. -/
noncomputable def generate_profile (getElev : ℝ → ℝ → ℝ)
    (lat1 lon1 lat2 lon2 : ℝ) : List ℝ × ℝ :=
  let dist_m := haversine_distance lat1 lon1 lat2 lon2
  if dist_m = 0 then ([getElev lat1 lon1], 0)
  else (profilePoints getElev lat1 lon1 lat2 lon2 (numPoints dist_m), dist_m)

/-- calculate_fresnel_zone from rf_physics.py: first Fresnel zone radius,
wavelength = 2.99792e8 / (freq_mhz * 1e6). -/
noncomputable def calculate_fresnel_zone (dist_m freq_mhz p_d1 p_d2 : ℝ) : ℝ :=
  Real.sqrt ((1 * (2.99792e8 / (freq_mhz * 1e6)) * p_d1 * p_d2) / dist_m)

/-- Earth bulge at sample i of n: d_tx * d_rx / (2 * k * R) with k = 1.333,
where d_tx = linspace(0, dist_m, n)[i] (analyze_link, lines 59-73). -/
noncomputable def bulgeAt (dist_m : ℝ) (n i : ℕ) : ℝ :=
  let d1 := linspaceAt 0 dist_m n i
  d1 * (dist_m - d1) / (2 * (1.333 * (EARTH_RADIUS_KM * 1000)))

/-- clearance[i] = los_h[i] - terrain_h[i] from analyze_link: the straight
line-of-sight between elevs[0]+tx_h and elevs[-1]+rx_h minus the
bulge-corrected terrain. -/
noncomputable def clearanceAt (elevs : List ℝ) (dist_m tx_h rx_h : ℝ) (i : ℕ) : ℝ :=
  let n := elevs.length
  let tx_alt := elevs.headD 0 + tx_h
  let rx_alt := elevs.getLastD 0 + rx_h
  linspaceAt tx_alt rx_alt n i - (elevs.getD i 0 + bulgeAt dist_m n i)

/-- The clearance ratios computed by the loop of analyze_link (lines 96-109):
samples with d1 < 1 or d2 < 1 are skipped, the others contribute
clearance[i] / fresnel_radius[i]. -/
noncomputable def ratioList (elevs : List ℝ) (dist_m freq_mhz tx_h rx_h : ℝ) : List ℝ :=
  let n := elevs.length
  (List.range n).filterMap (fun i =>
    let d1 := linspaceAt 0 dist_m n i
    let d2 := dist_m - d1
    if d1 < 1 ∨ d2 < 1 then none
    else some (clearanceAt elevs dist_m tx_h rx_h i / calculate_fresnel_zone dist_m freq_mhz d1 d2))

/-- The running-minimum loop of analyze_link: min_clearance_ratio starts at
100.0 and is replaced whenever ratio < min_clearance_ratio. -/
noncomputable def minLoop : List ℝ → ℝ → ℝ
  | [], m => m
  | r :: rs, m => minLoop rs (if r < m then r else m)

/-- Status classification of analyze_link (lines 112-116). -/
noncomputable def statusOf (mcr : ℝ) : String :=
  if mcr < 0 then "blocked" else if mcr < 0.6 then "degraded" else "viable"

/-- Link Result record returned by analyze_link. -/
structure LinkResult where
  dist_km : ℝ
  status : String
  min_clearance_ratio : ℝ
  path_loss_db : ℝ
  profile : List ℝ

/-- Body of analyze_link after the profile has been generated (lines 49-124):
runs the clearance-ratio loop and assembles the result dictionary; the
path_loss_db entry is the literal 0.0 placeholder. -/
noncomputable def mkLinkResult (elevs : List ℝ) (dist_m freq_mhz tx_h rx_h : ℝ) : LinkResult :=
  let mcr := minLoop (ratioList elevs dist_m freq_mhz tx_h rx_h) 100
  { dist_km := dist_m / 1000
    status := statusOf mcr
    min_clearance_ratio := mcr
    path_loss_db := 0.0
    profile := elevs }

/-- analyze_link from rf_physics.py. The elevation source (tile_manager's
get_elevation) is passed as a function. -/
noncomputable def analyze_link (getElev : ℝ → ℝ → ℝ)
    (lat1 lon1 lat2 lon2 freq_mhz tx_h rx_h : ℝ) : LinkResult :=
  let p := generate_profile getElev lat1 lon1 lat2 lon2
  mkLinkResult p.1 p.2 freq_mhz tx_h rx_h

/-- calculate_itm_loss from rf_physics.py: the try/except import block is a
no-op, the function returns 0 for sub-meter links and otherwise the
free-space path loss 20*log10(d_km) + 20*log10(f_mhz) + 32.44.
elevs, tx_h and rx_h are accepted and ignored, as in the source. -/
noncomputable def calculate_itm_loss (dist_m : ℝ) (elevs : List ℝ)
    (freq_mhz tx_h rx_h : ℝ) : ℝ :=
  let dist_km := dist_m / 1000
  if dist_km < 0.001 then 0
  else 20 * Real.logb 10 dist_km + 20 * Real.logb 10 freq_mhz + 32.44

/-! ### Basic lemmas about the running minimum -/

theorem minLoop_eq_foldl (l : List ℝ) (m : ℝ) : minLoop l m = List.foldl min m l := by
  induction l generalizing m with
  | nil => rfl
  | cons r rs ih =>
    simp only [minLoop, List.foldl_cons, ih]
    congr 1
    rcases lt_or_le r m with h | h
    · simp [if_pos h, min_eq_right h.le]
    · simp [if_neg (not_lt.2 h), min_eq_left h]

theorem foldl_min_le_init (l : List ℝ) (m : ℝ) : List.foldl min m l ≤ m := by
  induction l generalizing m with
  | nil => simp
  | cons r rs ih => exact le_trans (ih (min m r)) (min_le_left m r)

theorem foldl_min_le_mem {l : List ℝ} {x : ℝ} (hx : x ∈ l) (m : ℝ) :
    List.foldl min m l ≤ x := by
  induction l generalizing m with
  | nil => simp at hx
  | cons r rs ih =>
    rcases List.mem_cons.1 hx with h | h
    · subst h
      exact le_trans (foldl_min_le_init rs (min m x)) (min_le_right m x)
    · exact ih h (min m r)

theorem foldl_min_eq_init_or_mem (l : List ℝ) (m : ℝ) :
    List.foldl min m l = m ∨ List.foldl min m l ∈ l := by
  induction l generalizing m with
  | nil => left; rfl
  | cons r rs ih =>
    rw [List.foldl_cons]
    rcases ih (min m r) with h | h
    · rcases le_total m r with hmr | hmr
      · left; rw [h, min_eq_left hmr]
      · right; rw [h, min_eq_right hmr]; exact List.mem_cons_self r rs
    · right; exact List.mem_cons_of_mem r h

theorem le_foldl_min {l : List ℝ} {a m : ℝ} (hm : a ≤ m) (h : ∀ x ∈ l, a ≤ x) :
    a ≤ List.foldl min m l := by
  induction l generalizing m with
  | nil => simpa using hm
  | cons r rs ih =>
    exact ih (le_min hm (h r (List.mem_cons_self r rs)))
      (fun x hx => h x (List.mem_cons_of_mem r hx))

theorem foldl_min_eq_init {l : List ℝ} {m : ℝ} (h : ∀ x ∈ l, m ≤ x) :
    List.foldl min m l = m := by
  induction l generalizing m with
  | nil => rfl
  | cons r rs ih =>
    have : min m r = m := min_eq_left (h r (List.mem_cons_self r rs))
    simp only [List.foldl_cons, this]
    exact ih (fun x hx => h x (List.mem_cons_of_mem r hx))

theorem foldl_min_mono_init {l : List ℝ} {m m' : ℝ} (h : m ≤ m') :
    List.foldl min m l ≤ List.foldl min m' l := by
  induction l generalizing m m' with
  | nil => simpa using h
  | cons r rs ih => exact ih (min_le_min h (le_refl r))

theorem foldl_min_le_foldl_min {l₁ l₂ : List ℝ} (h : List.Forall₂ (· ≤ ·) l₁ l₂)
    (m : ℝ) : List.foldl min m l₁ ≤ List.foldl min m l₂ := by
  induction h generalizing m with
  | nil => simp
  | cons hab htl ih =>
    simp only [List.foldl_cons]
    exact le_trans (foldl_min_mono_init (min_le_min (le_refl m) hab)) (ih _)

/-! ### Profile and clearance helper lemmas -/

theorem linspaceAt_same (a : ℝ) (n i : ℕ) : linspaceAt a a n i = a := by
  unfold linspaceAt
  split
  · rfl
  · simp

theorem linspaceAt_zero_zero (n i : ℕ) : linspaceAt 0 0 n i = 0 := by
  simpa using linspaceAt_same 0 n i

theorem getLastD_of_const {l : List ℝ} {e0 : ℝ} (hc : ∀ x ∈ l, x = e0)
    (hne : l ≠ []) : l.getLastD 0 = e0 := by
  induction l with
  | nil => exact absurd rfl hne
  | cons a t ih =>
    cases t with
    | nil => simpa using hc a (by simp)
    | cons b t2 =>
      have : (a :: b :: t2).getLastD 0 = (b :: t2).getLastD 0 := rfl
      rw [this]
      exact ih (fun x hx => hc x (List.mem_cons_of_mem a hx)) (by simp)

theorem headD_of_const {l : List ℝ} {e0 : ℝ} (hc : ∀ x ∈ l, x = e0)
    (hne : l ≠ []) : l.headD 0 = e0 := by
  cases l with
  | nil => exact absurd rfl hne
  | cons a t => simpa using hc a (by simp)

theorem getD_of_const {l : List ℝ} {e0 : ℝ} (hc : ∀ x ∈ l, x = e0)
    {i : ℕ} (hi : i < l.length) : l.getD i 0 = e0 := by
  rw [List.getD_eq_getElem l 0 hi]
  exact hc _ (List.getElem_mem hi)

theorem clearanceAt_const {elevs : List ℝ} {e0 : ℝ} (hc : ∀ x ∈ elevs, x = e0)
    (hne : elevs ≠ []) (D h : ℝ) {i : ℕ} (hi : i < elevs.length) :
    clearanceAt elevs D h h i = h - bulgeAt D elevs.length i := by
  simp only [clearanceAt]
  rw [headD_of_const hc hne, getLastD_of_const hc hne, getD_of_const hc hi,
    linspaceAt_same]
  ring

theorem generate_profile_mem_const {getElev : ℝ → ℝ → ℝ} {e0 : ℝ}
    (hflat : ∀ a b, getElev a b = e0) (lat1 lon1 lat2 lon2 : ℝ) :
    ∀ x ∈ (generate_profile getElev lat1 lon1 lat2 lon2).1, x = e0 := by
  intro x hx
  unfold generate_profile at hx
  by_cases h : haversine_distance lat1 lon1 lat2 lon2 = 0
  · rw [if_pos h] at hx
    simpa [hflat] using hx
  · rw [if_neg h] at hx
    simp only [profilePoints, List.mem_map] at hx
    obtain ⟨i, _, hi⟩ := hx
    rw [← hi, hflat]

theorem generate_profile_ne_nil (getElev : ℝ → ℝ → ℝ) (lat1 lon1 lat2 lon2 : ℝ) :
    (generate_profile getElev lat1 lon1 lat2 lon2).1 ≠ [] := by
  unfold generate_profile
  by_cases h : haversine_distance lat1 lon1 lat2 lon2 = 0
  · rw [if_pos h]; simp
  · rw [if_neg h]
    simp only [profilePoints, ne_eq, List.map_eq_nil, List.range_eq_nil]
    unfold numPoints
    omega

theorem mem_ratioList {elevs : List ℝ} {dist_m freq tx rx x : ℝ}
    (hx : x ∈ ratioList elevs dist_m freq tx rx) :
    ∃ i, i < elevs.length ∧
      1 ≤ linspaceAt 0 dist_m elevs.length i ∧
      1 ≤ dist_m - linspaceAt 0 dist_m elevs.length i ∧
      x = clearanceAt elevs dist_m tx rx i /
        calculate_fresnel_zone dist_m freq (linspaceAt 0 dist_m elevs.length i)
          (dist_m - linspaceAt 0 dist_m elevs.length i) := by
  unfold ratioList at hx
  rw [List.mem_filterMap] at hx
  obtain ⟨i, hmem, heq⟩ := hx
  rw [List.mem_range] at hmem
  by_cases hc : linspaceAt 0 dist_m elevs.length i < 1 ∨
      dist_m - linspaceAt 0 dist_m elevs.length i < 1
  · rw [if_pos hc] at heq; exact absurd heq (by simp)
  · rw [if_neg hc] at heq
    push_neg at hc
    exact ⟨i, hmem, hc.1, hc.2, (Option.some_injective _ heq).symm⟩

theorem ratioList_mem_of {elevs : List ℝ} {dist_m freq tx rx : ℝ} {i : ℕ}
    (hi : i < elevs.length)
    (h1 : 1 ≤ linspaceAt 0 dist_m elevs.length i)
    (h2 : 1 ≤ dist_m - linspaceAt 0 dist_m elevs.length i) :
    clearanceAt elevs dist_m tx rx i /
        calculate_fresnel_zone dist_m freq (linspaceAt 0 dist_m elevs.length i)
          (dist_m - linspaceAt 0 dist_m elevs.length i) ∈
      ratioList elevs dist_m freq tx rx := by
  unfold ratioList
  rw [List.mem_filterMap]
  refine ⟨i, List.mem_range.2 hi, ?_⟩
  have hcond : ¬(linspaceAt 0 dist_m elevs.length i < 1 ∨
      dist_m - linspaceAt 0 dist_m elevs.length i < 1) := by
    push_neg
    exact ⟨h1, h2⟩
  simp only [if_neg hcond]

theorem calculate_fresnel_zone_pos {dist_m freq d1 d2 : ℝ}
    (hf : 0 < freq) (hd1 : 0 < d1) (hd2 : 0 < d2) (hD : 0 < dist_m) :
    0 < calculate_fresnel_zone dist_m freq d1 d2 := by
  unfold calculate_fresnel_zone
  apply Real.sqrt_pos.2
  have hw : 0 < 2.99792e8 / (freq * 1e6) := by positivity
  positivity

/-! ### Claim C1 and Claim C5 -/

/-- Claim C1 (amended): the status returned by analyze_link is classified from
its min_clearance_ratio field by the thresholds 0 and 0.6, and that field is
the minimum of the profile's interior clearance ratios capped at the loop's
initial sentinel value 100.0 (a fold of min over the ratio list starting at
100). -/
theorem analyze_link_status_from_capped_minimum (getElev : ℝ → ℝ → ℝ)
    (lat1 lon1 lat2 lon2 freq_mhz tx_h rx_h : ℝ) :
    (analyze_link getElev lat1 lon1 lat2 lon2 freq_mhz tx_h rx_h).status =
      (if (analyze_link getElev lat1 lon1 lat2 lon2 freq_mhz tx_h rx_h).min_clearance_ratio < 0
        then "blocked"
        else if (analyze_link getElev lat1 lon1 lat2 lon2 freq_mhz tx_h rx_h).min_clearance_ratio < 0.6
        then "degraded" else "viable") ∧
    (analyze_link getElev lat1 lon1 lat2 lon2 freq_mhz tx_h rx_h).min_clearance_ratio =
      List.foldl min 100
        (ratioList (analyze_link getElev lat1 lon1 lat2 lon2 freq_mhz tx_h rx_h).profile
          (1000 * (analyze_link getElev lat1 lon1 lat2 lon2 freq_mhz tx_h rx_h).dist_km)
          freq_mhz tx_h rx_h) := by
  constructor
  · simp only [analyze_link, mkLinkResult, statusOf]
  · simp only [analyze_link, mkLinkResult]
    rw [show (1000 : ℝ) * ((generate_profile getElev lat1 lon1 lat2 lon2).2 / 1000) =
        (generate_profile getElev lat1 lon1 lat2 lon2).2 by ring]
    exact minLoop_eq_foldl _ _

theorem numPoints_eq_two {D : ℝ} (h : D < 90) : numPoints D = 2 := by
  unfold numPoints
  have h1 : ⌊D / 30⌋ < 3 := by
    apply Int.floor_lt.2
    push_cast
    linarith
  omega

theorem ratioList_length_two {elevs : List ℝ} (h2 : elevs.length = 2)
    (D freq tx rx : ℝ) : ratioList elevs D freq tx rx = [] := by
  have e0 : linspaceAt 0 D 2 0 = 0 := by norm_num [linspaceAt]
  have e1 : linspaceAt 0 D 2 1 = D := by norm_num [linspaceAt]
  unfold ratioList
  simp only [h2]
  rw [List.filterMap_eq_nil]
  intro i hi
  have hi2 : i = 0 ∨ i = 1 := by
    rw [List.mem_range] at hi
    omega
  rcases hi2 with rfl | rfl
  · simp only [e0]
    norm_num
  · simp only [e1]
    norm_num

/-- Claim C5: a positive haversine distance below 90 m makes generate_profile
emit exactly two samples; both endpoints are skipped by the d1 < 1 / d2 < 1
guard, so no clearance ratio is computed, the sentinel 100.0 survives and the
status is viable, whatever the terrain, frequency and antenna heights. -/
theorem analyze_link_short_profile_sentinel (getElev : ℝ → ℝ → ℝ)
    (lat1 lon1 lat2 lon2 freq_mhz tx_h rx_h : ℝ)
    (hpos : 0 < haversine_distance lat1 lon1 lat2 lon2)
    (hlt : haversine_distance lat1 lon1 lat2 lon2 < 90) :
    (analyze_link getElev lat1 lon1 lat2 lon2 freq_mhz tx_h rx_h).profile.length = 2 ∧
    ratioList (analyze_link getElev lat1 lon1 lat2 lon2 freq_mhz tx_h rx_h).profile
      (1000 * (analyze_link getElev lat1 lon1 lat2 lon2 freq_mhz tx_h rx_h).dist_km)
      freq_mhz tx_h rx_h = [] ∧
    (analyze_link getElev lat1 lon1 lat2 lon2 freq_mhz tx_h rx_h).min_clearance_ratio = 100 ∧
    (analyze_link getElev lat1 lon1 lat2 lon2 freq_mhz tx_h rx_h).status = "viable" := by
  have hne : haversine_distance lat1 lon1 lat2 lon2 ≠ 0 := ne_of_gt hpos
  have hgp : generate_profile getElev lat1 lon1 lat2 lon2 =
      (profilePoints getElev lat1 lon1 lat2 lon2 2, haversine_distance lat1 lon1 lat2 lon2) := by
    unfold generate_profile
    rw [if_neg hne, numPoints_eq_two hlt]
  have hlen : (profilePoints getElev lat1 lon1 lat2 lon2 2).length = 2 := by
    simp [profilePoints]
  have hrl : ratioList (profilePoints getElev lat1 lon1 lat2 lon2 2)
      (haversine_distance lat1 lon1 lat2 lon2) freq_mhz tx_h rx_h = [] :=
    ratioList_length_two hlen _ _ _ _
  refine ⟨?_, ?_, ?_, ?_⟩
  · simp only [analyze_link, mkLinkResult, hgp]
    exact hlen
  · simp only [analyze_link, mkLinkResult, hgp]
    rw [show (1000 : ℝ) * (haversine_distance lat1 lon1 lat2 lon2 / 1000) =
        haversine_distance lat1 lon1 lat2 lon2 by ring]
    exact hrl
  · simp only [analyze_link, mkLinkResult, hgp, hrl, minLoop]
  · simp only [analyze_link, mkLinkResult, hgp, hrl, minLoop, statusOf]
    norm_num

/-! ### Claim C2 (amended): flat terrain and equal heights -/

/-- Claim C2 (amended): for a perfectly flat terrain profile (constant
elevation source) and equal antenna heights h, analyze_link reports viable
provided the clearance h - bulge left by the earth-curvature bulge is at
least 60 percent of the first Fresnel radius at every interior sample of the
generated profile (samples with d1 >= 1 and d2 >= 1); the earth bulge keeps
this from holding unconditionally. -/
theorem analyze_link_flat_viable (getElev : ℝ → ℝ → ℝ)
    (e0 h lat1 lon1 lat2 lon2 freq_mhz : ℝ)
    (hflat : ∀ a b, getElev a b = e0) (hfreq : 0 < freq_mhz)
    (hclr : ∀ i,
      1 ≤ linspaceAt 0 (generate_profile getElev lat1 lon1 lat2 lon2).2
            (generate_profile getElev lat1 lon1 lat2 lon2).1.length i →
      1 ≤ (generate_profile getElev lat1 lon1 lat2 lon2).2 -
            linspaceAt 0 (generate_profile getElev lat1 lon1 lat2 lon2).2
              (generate_profile getElev lat1 lon1 lat2 lon2).1.length i →
      0.6 * calculate_fresnel_zone (generate_profile getElev lat1 lon1 lat2 lon2).2 freq_mhz
          (linspaceAt 0 (generate_profile getElev lat1 lon1 lat2 lon2).2
            (generate_profile getElev lat1 lon1 lat2 lon2).1.length i)
          ((generate_profile getElev lat1 lon1 lat2 lon2).2 -
            linspaceAt 0 (generate_profile getElev lat1 lon1 lat2 lon2).2
              (generate_profile getElev lat1 lon1 lat2 lon2).1.length i) ≤
        h - bulgeAt (generate_profile getElev lat1 lon1 lat2 lon2).2
              (generate_profile getElev lat1 lon1 lat2 lon2).1.length i) :
    (analyze_link getElev lat1 lon1 lat2 lon2 freq_mhz h h).status = "viable" := by
  set p := generate_profile getElev lat1 lon1 lat2 lon2 with hp
  have hmem : ∀ x ∈ ratioList p.1 p.2 freq_mhz h h, (0.6 : ℝ) ≤ x := by
    intro x hx
    obtain ⟨i, hi, h1, h2, hxe⟩ := mem_ratioList hx
    have hfres : 0 < calculate_fresnel_zone p.2 freq_mhz
        (linspaceAt 0 p.2 p.1.length i) (p.2 - linspaceAt 0 p.2 p.1.length i) := by
      apply calculate_fresnel_zone_pos hfreq (by linarith) (by linarith)
      have := h1
      have := h2
      nlinarith [h1, h2]
    have hcl : clearanceAt p.1 p.2 h h i = h - bulgeAt p.2 p.1.length i :=
      clearanceAt_const (generate_profile_mem_const hflat lat1 lon1 lat2 lon2)
        (generate_profile_ne_nil getElev lat1 lon1 lat2 lon2) p.2 h hi
    rw [hxe, hcl, le_div_iff hfres]
    have := hclr i h1 h2
    linarith
  have hmcr : (0.6 : ℝ) ≤ minLoop (ratioList p.1 p.2 freq_mhz h h) 100 := by
    rw [minLoop_eq_foldl]
    exact le_foldl_min (by norm_num) hmem
  show statusOf (minLoop (ratioList p.1 p.2 freq_mhz h h) 100) = "viable"
  unfold statusOf
  rw [if_neg (by linarith), if_neg (by linarith)]

/-! ### Claim C3 (amended): frequency monotonicity under nonnegative clearance -/

theorem forall₂_le_filterMap {f g : ℕ → Option ℝ} (l : List ℕ)
    (h : ∀ i ∈ l, (f i = none ∧ g i = none) ∨
      ∃ a b, f i = some a ∧ g i = some b ∧ a ≤ b) :
    List.Forall₂ (· ≤ ·) (l.filterMap f) (l.filterMap g) := by
  induction l with
  | nil => simp
  | cons i t ih =>
    have ht := ih (fun j hj => h j (List.mem_cons_of_mem i hj))
    rcases h i (List.mem_cons_self i t) with ⟨hf, hg⟩ | ⟨a, b, hf, hg, hab⟩
    · rw [List.filterMap_cons, List.filterMap_cons, hf, hg]
      exact ht
    · rw [List.filterMap_cons, List.filterMap_cons, hf, hg]
      exact List.Forall₂.cons hab ht

theorem ratioList_pointwise_le {elevs : List ℝ} {D fa fb tx rx : ℝ}
    (h : ∀ i, i < elevs.length →
      1 ≤ linspaceAt 0 D elevs.length i →
      1 ≤ D - linspaceAt 0 D elevs.length i →
      clearanceAt elevs D tx rx i /
          calculate_fresnel_zone D fa (linspaceAt 0 D elevs.length i)
            (D - linspaceAt 0 D elevs.length i) ≤
        clearanceAt elevs D tx rx i /
          calculate_fresnel_zone D fb (linspaceAt 0 D elevs.length i)
            (D - linspaceAt 0 D elevs.length i)) :
    List.Forall₂ (· ≤ ·) (ratioList elevs D fa tx rx) (ratioList elevs D fb tx rx) := by
  unfold ratioList
  apply forall₂_le_filterMap
  intro i hi
  rw [List.mem_range] at hi
  by_cases hc : linspaceAt 0 D elevs.length i < 1 ∨
      D - linspaceAt 0 D elevs.length i < 1
  · exact Or.inl ⟨by simp only [if_pos hc], by simp only [if_pos hc]⟩
  · push_neg at hc
    have hnc : ¬(linspaceAt 0 D elevs.length i < 1 ∨
        D - linspaceAt 0 D elevs.length i < 1) :=
      not_or.2 ⟨not_lt.2 hc.1, not_lt.2 hc.2⟩
    exact Or.inr ⟨_, _, by simp only [if_neg hnc], by simp only [if_neg hnc],
      h i hi hc.1 hc.2⟩

/-- Claim C3 (amended): with endpoints, terrain and antenna heights fixed,
min_clearance_ratio is non-decreasing in frequency provided no sample of the
generated profile has negative clearance; a negative clearance is divided by
the shrinking Fresnel radius and then decreases with frequency instead. -/
theorem analyze_link_freq_monotone (getElev : ℝ → ℝ → ℝ)
    (lat1 lon1 lat2 lon2 tx_h rx_h fa fb : ℝ)
    (hfa : 0 < fa) (hab : fa ≤ fb)
    (hclr : ∀ i, i < (generate_profile getElev lat1 lon1 lat2 lon2).1.length →
      0 ≤ clearanceAt (generate_profile getElev lat1 lon1 lat2 lon2).1
            (generate_profile getElev lat1 lon1 lat2 lon2).2 tx_h rx_h i) :
    (analyze_link getElev lat1 lon1 lat2 lon2 fa tx_h rx_h).min_clearance_ratio ≤
      (analyze_link getElev lat1 lon1 lat2 lon2 fb tx_h rx_h).min_clearance_ratio := by
  set p := generate_profile getElev lat1 lon1 lat2 lon2 with hp
  show minLoop (ratioList p.1 p.2 fa tx_h rx_h) 100 ≤
    minLoop (ratioList p.1 p.2 fb tx_h rx_h) 100
  rw [minLoop_eq_foldl, minLoop_eq_foldl]
  apply foldl_min_le_foldl_min
  apply ratioList_pointwise_le
  intro i hi h1 h2
  have hfb : 0 < fb := lt_of_lt_of_le hfa hab
  have hd1 : 0 < linspaceAt 0 p.2 p.1.length i := by linarith
  have hd2 : 0 < p.2 - linspaceAt 0 p.2 p.1.length i := by linarith
  have hD : 0 < p.2 := by linarith
  have hfres_pos : 0 < calculate_fresnel_zone p.2 fb (linspaceAt 0 p.2 p.1.length i)
      (p.2 - linspaceAt 0 p.2 p.1.length i) :=
    calculate_fresnel_zone_pos hfb hd1 hd2 hD
  have hfres_le : calculate_fresnel_zone p.2 fb (linspaceAt 0 p.2 p.1.length i)
      (p.2 - linspaceAt 0 p.2 p.1.length i) ≤
      calculate_fresnel_zone p.2 fa (linspaceAt 0 p.2 p.1.length i)
        (p.2 - linspaceAt 0 p.2 p.1.length i) := by
    unfold calculate_fresnel_zone
    apply Real.sqrt_le_sqrt
    gcongr
  exact div_le_div_of_nonneg_left (hclr i hi) hfres_pos hfres_le

/-! ### Concrete evaluation of the haversine distance -/

theorem haversine_same (lat lon : ℝ) : haversine_distance lat lon lat lon = 0 := by
  simp only [haversine_distance, radians, atan2, sub_self, zero_mul, zero_div,
    Real.sin_zero, ne_eq, OfNat.ofNat_ne_zero, not_false_iff, zero_pow, mul_zero,
    add_zero, zero_add, Real.sqrt_zero, sub_zero, Real.sqrt_one]
  norm_num [Real.arctan_zero]

/-- On the equator the haversine distance reduces to arc length: for a
longitude difference of l degrees (0 < l <= 90) the distance is the arc
R * radians l. -/
theorem haversine_flat {l : ℝ} (h0 : 0 < l) (h90 : l ≤ 90) :
    haversine_distance 0 0 0 l = 6371000 * (l * Real.pi / 180) := by
  have hπ := Real.pi_pos
  set t := l * Real.pi / 360 with ht
  have ht0 : 0 < t := by positivity
  have htle : t < Real.pi / 2 := by
    have h1 : l * Real.pi ≤ 90 * Real.pi := mul_le_mul_of_nonneg_right h90 hπ.le
    rw [ht]
    linarith
  have htpi : t < Real.pi := by linarith
  have hsin : 0 < Real.sin t := Real.sin_pos_of_pos_of_lt_pi ht0 htpi
  have hcos : 0 < Real.cos t := Real.cos_pos_of_mem_Ioo ⟨by linarith, htle⟩
  have harg : (l - 0) * Real.pi / 180 / 2 = t := by rw [ht]; ring
  have h00 : ((0 : ℝ) - 0) * Real.pi / 180 / 2 = 0 := by ring
  have hz : (0 : ℝ) * Real.pi / 180 = 0 := by ring
  simp only [haversine_distance, radians, EARTH_RADIUS_KM, h00, hz, harg,
    Real.sin_zero, Real.cos_zero, one_mul]
  rw [show (0 : ℝ) ^ 2 + Real.sin t ^ 2 = Real.sin t ^ 2 by ring]
  rw [Real.sqrt_sq hsin.le]
  rw [show (1 : ℝ) - Real.sin t ^ 2 = Real.cos t ^ 2 by
    nlinarith [Real.sin_sq_add_cos_sq t]]
  rw [Real.sqrt_sq hcos.le]
  unfold atan2
  rw [if_pos hcos, ← Real.tan_eq_sin_div_cos,
    Real.arctan_tan (by linarith) htle, ht]
  ring

/-- The test distance used by the counterexamples: endpoints (0, 0) and
(0, 0.01), about 1112 meters apart. -/
noncomputable def testDist : ℝ := 6371000 * ((1 / 100) * Real.pi / 180)

theorem haversine_test : haversine_distance 0 0 0 (1 / 100) = testDist :=
  haversine_flat (by norm_num) (by norm_num)

theorem testDist_bounds : 1110 ≤ testDist ∧ testDist < 1140 := by
  have h1 := Real.pi_gt_314
  have h2 := Real.pi_lt_315
  unfold testDist
  constructor <;> nlinarith

theorem testDist_pos : 0 < testDist := by
  have := testDist_bounds
  linarith [this.1]

theorem numPoints_testDist : numPoints testDist = 37 := by
  obtain ⟨hl, hu⟩ := testDist_bounds
  unfold numPoints
  have hfl : ⌊testDist / 30⌋ = (37 : ℤ) := by
    rw [Int.floor_eq_iff]
    constructor <;> push_cast <;> linarith
  rw [hfl]
  rfl

theorem profilePoints_const (lat1 lon1 lat2 lon2 : ℝ) (n : ℕ) :
    profilePoints (fun _ _ => (0 : ℝ)) lat1 lon1 lat2 lon2 n = List.replicate n 0 := by
  simp [profilePoints]

theorem generate_profile_test :
    generate_profile (fun _ _ => (0 : ℝ)) 0 0 0 (1 / 100) =
      (List.replicate 37 0, testDist) := by
  simp only [generate_profile, haversine_test]
  rw [if_neg (ne_of_gt testDist_pos), numPoints_testDist, profilePoints_const]

theorem linspace_test_d1 : linspaceAt 0 testDist 37 1 = testDist / 36 := by
  unfold linspaceAt
  rw [if_neg (by norm_num)]
  push_cast
  ring

theorem bulge_test_pos : 0 < bulgeAt testDist 37 1 := by
  obtain ⟨hDl, hDu⟩ := testDist_bounds
  simp only [bulgeAt, EARTH_RADIUS_KM, linspace_test_d1]
  apply div_pos
  · apply mul_pos (by linarith)
    linarith
  · norm_num

theorem generate_profile_same (getElev : ℝ → ℝ → ℝ) (lat lon : ℝ) :
    generate_profile getElev lat lon lat lon = ([getElev lat lon], 0) := by
  simp [generate_profile, haversine_same]

/-- On the flat zero test profile at 1000 MHz with antenna heights 0, the
clearance ratio of interior sample 1 is negative (earth bulge below the
line of sight). -/
theorem test_ratio_neg_mem :
    ∃ x ∈ ratioList (List.replicate 37 (0 : ℝ)) testDist 1000 0 0, x < 0 := by
  obtain ⟨hDl, hDu⟩ := testDist_bounds
  have hlen : (List.replicate 37 (0 : ℝ)).length = 37 := by simp
  have h1 : 1 ≤ linspaceAt 0 testDist (List.replicate 37 (0 : ℝ)).length 1 := by
    rw [hlen, linspace_test_d1]
    linarith
  have h2 : 1 ≤ testDist - linspaceAt 0 testDist (List.replicate 37 (0 : ℝ)).length 1 := by
    rw [hlen, linspace_test_d1]
    linarith
  have hi : 1 < (List.replicate 37 (0 : ℝ)).length := by rw [hlen]; norm_num
  have hmem : clearanceAt (List.replicate 37 (0 : ℝ)) testDist 0 0 1 /
      calculate_fresnel_zone testDist 1000
        (linspaceAt 0 testDist (List.replicate 37 (0 : ℝ)).length 1)
        (testDist - linspaceAt 0 testDist (List.replicate 37 (0 : ℝ)).length 1) ∈
      ratioList (List.replicate 37 (0 : ℝ)) testDist 1000 0 0 :=
    ratioList_mem_of hi h1 h2
  rw [hlen] at hmem
  have hclear : clearanceAt (List.replicate 37 (0 : ℝ)) testDist 0 0 1 =
      0 - bulgeAt testDist 37 1 := by
    have hcc := clearanceAt_const (fun x hx => List.eq_of_mem_replicate hx)
      (by simp) testDist 0 hi
    rw [hlen] at hcc
    exact hcc
  have hd1pos : 0 < linspaceAt 0 testDist 37 1 := by
    rw [linspace_test_d1]
    linarith
  have hd2pos : 0 < testDist - linspaceAt 0 testDist 37 1 := by
    rw [linspace_test_d1]
    linarith
  have hfres := calculate_fresnel_zone_pos (show (0 : ℝ) < 1000 by norm_num)
    hd1pos hd2pos (show (0 : ℝ) < testDist by linarith)
  have hneg : clearanceAt (List.replicate 37 (0 : ℝ)) testDist 0 0 1 /
      calculate_fresnel_zone testDist 1000 (linspaceAt 0 testDist 37 1)
        (testDist - linspaceAt 0 testDist 37 1) < 0 := by
    apply div_neg_of_neg_of_pos _ hfres
    rw [hclear]
    have := bulge_test_pos
    linarith
  exact ⟨_, hmem, hneg⟩

/-- Claim C2 (counterexample): flat terrain (constant elevation 0), equal
antenna heights 0, endpoints (0,0) and (0,0.01) about 1112 m apart, 1000 MHz:
the earth-curvature bulge makes the interior clearances negative and
analyze_link reports blocked, not viable, refuting the claim that flat
terrain and equal heights always yield viable for any distance > 0. -/
theorem analyze_link_flat_blocked_cex :
    (analyze_link (fun _ _ => (0 : ℝ)) 0 0 0 (1 / 100) 1000 0 0).status = "blocked" := by
  have hres : analyze_link (fun _ _ => (0 : ℝ)) 0 0 0 (1 / 100) 1000 0 0 =
      mkLinkResult (List.replicate 37 0) testDist 1000 0 0 := by
    unfold analyze_link
    rw [generate_profile_test]
  rw [hres]
  show statusOf (minLoop (ratioList (List.replicate 37 0) testDist 1000 0 0) 100) = "blocked"
  obtain ⟨x, hxm, hxneg⟩ := test_ratio_neg_mem
  have hmcr : minLoop (ratioList (List.replicate 37 (0 : ℝ)) testDist 1000 0 0) 100 < 0 := by
    rw [minLoop_eq_foldl]
    exact lt_of_le_of_lt (foldl_min_le_mem hxm 100) hxneg
  unfold statusOf
  rw [if_pos hmcr]

/-- Witness for Claim C2: a degenerate same-point link discharges the
interior-clearance hypothesis vacuously and analyze_link reports viable. -/
theorem analyze_link_flat_viable_witness :
    (analyze_link (fun _ _ => (3 : ℝ)) 0 0 0 0 1000 5 5).status = "viable" := by
  apply analyze_link_flat_viable (fun _ _ => (3 : ℝ)) 3 5 0 0 0 0 1000
    (fun _ _ => rfl) (by norm_num)
  intro i hi1 _
  exfalso
  rw [generate_profile_same] at hi1
  simp only [linspaceAt_zero_zero] at hi1
  exact absurd hi1 (by norm_num)

/-- Witness for Claim C5: endpoints (0,0) and (0,0.0005) are about 55.6 m
apart, a positive distance below 90 m, and the resulting status is viable. -/
theorem analyze_link_short_profile_sentinel_witness :
    0 < haversine_distance 0 0 0 (1 / 2000) ∧
    haversine_distance 0 0 0 (1 / 2000) < 90 ∧
    (analyze_link (fun _ _ => (0 : ℝ)) 0 0 0 (1 / 2000) 915 10 2).status = "viable" := by
  have he : haversine_distance 0 0 0 (1 / 2000) =
      6371000 * ((1 / 2000) * Real.pi / 180) :=
    haversine_flat (by norm_num) (by norm_num)
  have hπ1 := Real.pi_gt_314
  have hπ2 := Real.pi_lt_315
  have h0 : 0 < haversine_distance 0 0 0 (1 / 2000) := by
    rw [he]
    nlinarith
  have h90 : haversine_distance 0 0 0 (1 / 2000) < 90 := by
    rw [he]
    nlinarith
  exact ⟨h0, h90,
    (analyze_link_short_profile_sentinel (fun _ _ => (0 : ℝ)) 0 0 0 (1 / 2000)
      915 10 2 h0 h90).2.2.2⟩

/-! ### Claim C3 counterexample: quadrupling the frequency on a blocked link -/

theorem filterMap_eq_map_filterMap {f g : ℕ → Option ℝ} (k : ℝ → ℝ) (l : List ℕ)
    (h : ∀ i ∈ l, g i = Option.map k (f i)) :
    l.filterMap g = (l.filterMap f).map k := by
  induction l with
  | nil => simp
  | cons i t ih =>
    have ht := ih (fun j hj => h j (List.mem_cons_of_mem i hj))
    have hi := h i (List.mem_cons_self i t)
    rw [List.filterMap_cons, List.filterMap_cons, hi]
    cases hf : f i with
    | none => simpa [hf] using ht
    | some a => simp [hf, ht]

theorem fresnel_quadruple (D d1 d2 : ℝ) :
    calculate_fresnel_zone D 4000 d1 d2 = calculate_fresnel_zone D 1000 d1 d2 / 2 := by
  unfold calculate_fresnel_zone
  rw [show (1 * (2.99792e8 / (4000 * 1e6)) * d1 * d2) / D =
      (1 / 4) * ((1 * (2.99792e8 / (1000 * 1e6)) * d1 * d2) / D) by ring]
  rw [Real.sqrt_mul (by norm_num) _]
  rw [show (1 / 4 : ℝ) = (1 / 2) ^ 2 by norm_num, Real.sqrt_sq (by norm_num)]
  ring

theorem ratioList_quadruple (elevs : List ℝ) (tx rx : ℝ) :
    ratioList elevs testDist 4000 tx rx =
      (ratioList elevs testDist 1000 tx rx).map (fun r => 2 * r) := by
  unfold ratioList
  apply filterMap_eq_map_filterMap
  intro i _
  by_cases hc : linspaceAt 0 testDist elevs.length i < 1 ∨
      testDist - linspaceAt 0 testDist elevs.length i < 1
  · simp only [if_pos hc, Option.map_none']
  · simp only [if_neg hc, Option.map_some']
    congr 1
    rw [fresnel_quadruple]
    rw [div_div_eq_mul_div]
    ring

/-- Claim C3 (counterexample): on the blocked flat link of the C2 scenario,
raising the frequency from 1000 MHz to 4000 MHz halves the Fresnel radius
and doubles the (negative) minimum clearance ratio downwards: the reported
min_clearance_ratio strictly decreases although the frequency increased. -/
theorem analyze_link_freq_decrease_cex :
    (analyze_link (fun _ _ => (0 : ℝ)) 0 0 0 (1 / 100) 4000 0 0).min_clearance_ratio <
      (analyze_link (fun _ _ => (0 : ℝ)) 0 0 0 (1 / 100) 1000 0 0).min_clearance_ratio := by
  have hres1 : analyze_link (fun _ _ => (0 : ℝ)) 0 0 0 (1 / 100) 1000 0 0 =
      mkLinkResult (List.replicate 37 0) testDist 1000 0 0 := by
    unfold analyze_link
    rw [generate_profile_test]
  have hres4 : analyze_link (fun _ _ => (0 : ℝ)) 0 0 0 (1 / 100) 4000 0 0 =
      mkLinkResult (List.replicate 37 0) testDist 4000 0 0 := by
    unfold analyze_link
    rw [generate_profile_test]
  rw [hres1, hres4]
  show minLoop (ratioList (List.replicate 37 0) testDist 4000 0 0) 100 <
    minLoop (ratioList (List.replicate 37 0) testDist 1000 0 0) 100
  rw [minLoop_eq_foldl, minLoop_eq_foldl, ratioList_quadruple]
  obtain ⟨x, hxm, hxneg⟩ := test_ratio_neg_mem
  have hM1le : List.foldl min 100 (ratioList (List.replicate 37 (0 : ℝ)) testDist 1000 0 0) ≤ x :=
    foldl_min_le_mem hxm 100
  have hM1neg : List.foldl min 100 (ratioList (List.replicate 37 (0 : ℝ)) testDist 1000 0 0) < 0 :=
    lt_of_le_of_lt hM1le hxneg
  have hM1mem : List.foldl min 100 (ratioList (List.replicate 37 (0 : ℝ)) testDist 1000 0 0) ∈
      ratioList (List.replicate 37 (0 : ℝ)) testDist 1000 0 0 := by
    rcases foldl_min_eq_init_or_mem (ratioList (List.replicate 37 (0 : ℝ)) testDist 1000 0 0) 100
      with h | h
    · exfalso
      rw [h] at hM1neg
      norm_num at hM1neg
    · exact h
  have h2mem : 2 * List.foldl min 100 (ratioList (List.replicate 37 (0 : ℝ)) testDist 1000 0 0) ∈
      (ratioList (List.replicate 37 (0 : ℝ)) testDist 1000 0 0).map (fun r => 2 * r) :=
    List.mem_map_of_mem _ hM1mem
  have hM4le := foldl_min_le_mem h2mem 100
  linarith

/-- Witness for Claim C3 (amended): a degenerate same-point link has a single
sample with clearance 5, so the nonnegative-clearance hypothesis holds and
the minimum clearance ratio is monotone between 1000 and 2000 MHz. -/
theorem analyze_link_freq_monotone_witness :
    (analyze_link (fun _ _ => (0 : ℝ)) 0 0 0 0 1000 5 5).min_clearance_ratio ≤
      (analyze_link (fun _ _ => (0 : ℝ)) 0 0 0 0 2000 5 5).min_clearance_ratio := by
  apply analyze_link_freq_monotone (fun _ _ => (0 : ℝ)) 0 0 0 0 5 5 1000 2000
    (by norm_num) (by norm_num)
  intro i hi
  rw [generate_profile_same] at hi ⊢
  simp only [List.length_cons, List.length_nil] at hi
  have hi0 : i = 0 := by omega
  subst hi0
  simp [clearanceAt, bulgeAt, linspaceAt]

/-! ### Claim C1 counterexample: the sentinel caps the reported minimum -/

theorem bulgeAt_le_one {n i : ℕ} (h1 : 0 ≤ linspaceAt 0 testDist n i)
    (h2 : linspaceAt 0 testDist n i ≤ testDist) : bulgeAt testDist n i ≤ 1 := by
  obtain ⟨hDl, hDu⟩ := testDist_bounds
  simp only [bulgeAt, EARTH_RADIUS_KM]
  rw [div_le_one (by norm_num)]
  nlinarith [sq_nonneg (testDist - 2 * linspaceAt 0 testDist n i),
    mul_nonneg (show (0 : ℝ) ≤ 1140 - testDist by linarith)
      (show (0 : ℝ) ≤ testDist by linarith)]

theorem fresnel_test_le_ten {d1 : ℝ} (h1 : 0 ≤ d1) (h2 : d1 ≤ testDist) :
    calculate_fresnel_zone testDist 1000 d1 (testDist - d1) ≤ 10 := by
  obtain ⟨hDl, hDu⟩ := testDist_bounds
  unfold calculate_fresnel_zone
  have harg : (1 * (2.99792e8 / (1000 * 1e6)) * d1 * (testDist - d1)) / testDist ≤ 100 := by
    rw [div_le_iff (by linarith)]
    nlinarith [sq_nonneg (testDist - 2 * d1),
      mul_nonneg (show (0 : ℝ) ≤ 1140 - testDist by linarith)
        (show (0 : ℝ) ≤ testDist by linarith)]
  calc Real.sqrt ((1 * (2.99792e8 / (1000 * 1e6)) * d1 * (testDist - d1)) / testDist)
      ≤ Real.sqrt 100 := Real.sqrt_le_sqrt harg
    _ = 10 := by
      rw [show (100 : ℝ) = 10 ^ 2 by norm_num, Real.sqrt_sq (by norm_num)]

/-- With 10000 m antenna masts on the flat zero test profile, every interior
clearance ratio exceeds 100, the sentinel starting value of the loop. -/
theorem test_ratio_all_above :
    ∀ x ∈ ratioList (List.replicate 37 (0 : ℝ)) testDist 1000 10000 10000, 100 < x := by
  intro x hx
  obtain ⟨i, hi, h1, h2, hxe⟩ := mem_ratioList hx
  have hlen : (List.replicate 37 (0 : ℝ)).length = 37 := by simp
  rw [hlen] at h1 h2 hxe hi
  have hcl : clearanceAt (List.replicate 37 (0 : ℝ)) testDist 10000 10000 i =
      10000 - bulgeAt testDist 37 i := by
    have hcc := clearanceAt_const (fun y hy => List.eq_of_mem_replicate hy)
      (by simp) testDist 10000 (show i < (List.replicate 37 (0 : ℝ)).length by rw [hlen]; exact hi)
    rw [hlen] at hcc
    exact hcc
  have hd1nn : (0 : ℝ) ≤ linspaceAt 0 testDist 37 i := by linarith
  have hd1le : linspaceAt 0 testDist 37 i ≤ testDist := by linarith
  have hbul := bulgeAt_le_one hd1nn hd1le
  have hfle := fresnel_test_le_ten hd1nn hd1le
  have hfpos := calculate_fresnel_zone_pos (show (0 : ℝ) < 1000 by norm_num)
    (show 0 < linspaceAt 0 testDist 37 i by linarith)
    (show 0 < testDist - linspaceAt 0 testDist 37 i by linarith) testDist_pos
  rw [hxe, hcl]
  have h10 : (10000 - bulgeAt testDist 37 i) / 10 ≤
      (10000 - bulgeAt testDist 37 i) /
        calculate_fresnel_zone testDist 1000 (linspaceAt 0 testDist 37 i)
          (testDist - linspaceAt 0 testDist 37 i) :=
    div_le_div_of_nonneg_left (by linarith) hfpos hfle
  have h999 : (999 : ℝ) ≤ (10000 - bulgeAt testDist 37 i) / 10 := by linarith
  linarith

/-- Claim C1 (counterexample): flat terrain, 10000 m antenna heights, 1112 m
link at 1000 MHz: every ratio across the profile exceeds 100, the returned
min_clearance_ratio is the sentinel 100.0 and is strictly below every
clearance ratio of the (nonempty) profile ratio list, so the field does not
equal the minimum clearance ratio across the profile. -/
theorem analyze_link_capped_min_cex :
    ratioList (analyze_link (fun _ _ => (0 : ℝ)) 0 0 0 (1 / 100) 1000 10000 10000).profile
        (1000 * (analyze_link (fun _ _ => (0 : ℝ)) 0 0 0 (1 / 100) 1000 10000 10000).dist_km)
        1000 10000 10000 ≠ [] ∧
    ∀ x ∈ ratioList (analyze_link (fun _ _ => (0 : ℝ)) 0 0 0 (1 / 100) 1000 10000 10000).profile
        (1000 * (analyze_link (fun _ _ => (0 : ℝ)) 0 0 0 (1 / 100) 1000 10000 10000).dist_km)
        1000 10000 10000,
      (analyze_link (fun _ _ => (0 : ℝ)) 0 0 0 (1 / 100) 1000 10000 10000).min_clearance_ratio < x := by
  have hres : analyze_link (fun _ _ => (0 : ℝ)) 0 0 0 (1 / 100) 1000 10000 10000 =
      mkLinkResult (List.replicate 37 0) testDist 1000 10000 10000 := by
    unfold analyze_link
    rw [generate_profile_test]
  rw [hres]
  have hscale : (1000 : ℝ) * ((mkLinkResult (List.replicate 37 0) testDist 1000 10000 10000).dist_km) =
      testDist := by
    show (1000 : ℝ) * (testDist / 1000) = testDist
    ring
  rw [hscale]
  show ratioList (List.replicate 37 0) testDist 1000 10000 10000 ≠ [] ∧
    ∀ x ∈ ratioList (List.replicate 37 0) testDist 1000 10000 10000,
      minLoop (ratioList (List.replicate 37 0) testDist 1000 10000 10000) 100 < x
  obtain ⟨hDl, hDu⟩ := testDist_bounds
  have hlen : (List.replicate 37 (0 : ℝ)).length = 37 := by simp
  have h1 : 1 ≤ linspaceAt 0 testDist (List.replicate 37 (0 : ℝ)).length 1 := by
    rw [hlen, linspace_test_d1]
    linarith
  have h2 : 1 ≤ testDist - linspaceAt 0 testDist (List.replicate 37 (0 : ℝ)).length 1 := by
    rw [hlen, linspace_test_d1]
    linarith
  have hi : 1 < (List.replicate 37 (0 : ℝ)).length := by rw [hlen]; norm_num
  have hmem : clearanceAt (List.replicate 37 (0 : ℝ)) testDist 10000 10000 1 /
      calculate_fresnel_zone testDist 1000
        (linspaceAt 0 testDist (List.replicate 37 (0 : ℝ)).length 1)
        (testDist - linspaceAt 0 testDist (List.replicate 37 (0 : ℝ)).length 1) ∈
      ratioList (List.replicate 37 (0 : ℝ)) testDist 1000 10000 10000 :=
    ratioList_mem_of hi h1 h2
  have hmcr : minLoop (ratioList (List.replicate 37 (0 : ℝ)) testDist 1000 10000 10000) 100 = 100 := by
    rw [minLoop_eq_foldl]
    exact foldl_min_eq_init (fun x hx => (test_ratio_all_above x hx).le)
  refine ⟨List.ne_nil_of_mem hmem, ?_⟩
  intro x hx
  rw [hmcr]
  exact test_ratio_all_above x hx

/-! ### Claim C4: path_loss_db is a 0.0 placeholder -/

/-- Claim C4 (amended): the path_loss_db field of every LinkResult returned by
analyze_link is the literal placeholder 0.0; the free-space-path-loss formula
20*log10(d_km) + 20*log10(f_mhz) + 32.44 is implemented by the separate
function calculate_itm_loss (for distances of at least a meter), which
analyze_link never calls. -/
theorem analyze_link_path_loss_placeholder (getElev : ℝ → ℝ → ℝ)
    (lat1 lon1 lat2 lon2 freq_mhz tx_h rx_h : ℝ) :
    (analyze_link getElev lat1 lon1 lat2 lon2 freq_mhz tx_h rx_h).path_loss_db = 0 ∧
    ∀ (dist_m : ℝ) (elevs : List ℝ) (f tx rx : ℝ), ¬(dist_m / 1000 < 0.001) →
      calculate_itm_loss dist_m elevs f tx rx =
        20 * Real.logb 10 (dist_m / 1000) + 20 * Real.logb 10 f + 32.44 := by
  constructor
  · norm_num [analyze_link, mkLinkResult]
  · intro dist_m elevs f tx rx h
    unfold calculate_itm_loss
    rw [if_neg h]

theorem logb_ten_thousand : Real.logb 10 1000 = 3 := by
  rw [show (1000 : ℝ) = 10 ^ (3 : ℕ) by norm_num, Real.logb_pow]
  norm_num [Real.logb_self_eq_one]

/-- Claim C4 (counterexample): on the 1112 m test link at 1000 MHz the
free-space-path-loss formula evaluates to more than 92 dB, while the
path_loss_db field returned by analyze_link is 0. -/
theorem analyze_link_path_loss_cex :
    (analyze_link (fun _ _ => (0 : ℝ)) 0 0 0 (1 / 100) 1000 10 10).path_loss_db ≠
      20 * Real.logb 10
          ((analyze_link (fun _ _ => (0 : ℝ)) 0 0 0 (1 / 100) 1000 10 10).dist_km) +
        20 * Real.logb 10 1000 + 32.44 := by
  have hres : analyze_link (fun _ _ => (0 : ℝ)) 0 0 0 (1 / 100) 1000 10 10 =
      mkLinkResult (List.replicate 37 0) testDist 1000 10 10 := by
    unfold analyze_link
    rw [generate_profile_test]
  rw [hres]
  have hpl : (mkLinkResult (List.replicate 37 0) testDist 1000 10 10).path_loss_db = 0 := by
    norm_num [mkLinkResult]
  have hdk : (mkLinkResult (List.replicate 37 0) testDist 1000 10 10).dist_km =
      testDist / 1000 := rfl
  rw [hpl, hdk, logb_ten_thousand]
  have h1 : (1 : ℝ) ≤ testDist / 1000 := by
    obtain ⟨hDl, _⟩ := testDist_bounds
    linarith
  have hlb1 : 0 ≤ Real.logb 10 (testDist / 1000) := Real.logb_nonneg (by norm_num) h1
  have hpos : (0 : ℝ) < 20 * Real.logb 10 (testDist / 1000) + 20 * 3 + 32.44 := by
    linarith
  exact ne_of_lt hpos

/-- Witness for Claim C4 (amended): the placeholder field at a degenerate
link, and the formula computed by calculate_itm_loss at 6371 km. -/
theorem analyze_link_path_loss_placeholder_witness :
    (analyze_link (fun _ _ => (0 : ℝ)) 0 0 0 0 1000 10 10).path_loss_db = 0 ∧
    calculate_itm_loss 6371000 [] 1000 10 10 =
      20 * Real.logb 10 (6371000 / 1000) + 20 * Real.logb 10 1000 + 32.44 := by
  refine ⟨(analyze_link_path_loss_placeholder (fun _ _ => (0 : ℝ)) 0 0 0 0 1000 10 10).1, ?_⟩
  exact (analyze_link_path_loss_placeholder (fun _ _ => (0 : ℝ)) 0 0 0 0 1000 10 10).2
    6371000 [] 1000 10 10 (by norm_num)

/-! ## network_planner.py: NetworkPlanner.optimize_sites -/

/-- The coverage graph consumed by optimize_sites: candidate node ids in
networkx insertion order, node weights, neighbor sets, and the universe of
target nodes. Node ids are naturals, weights exact rationals (Python floats
are modelled exactly). -/
structure CovGraph where
  candidates : List ℕ
  weight : ℕ → ℚ
  nbrs : ℕ → Finset ℕ
  targets : Finset ℕ

/-- new_cover = set(G.neighbors(cand)).intersection(universe) - covered
(network_planner.py lines 106-110). -/
def newCover (G : CovGraph) (covered : Finset ℕ) (c : ℕ) : Finset ℕ :=
  (G.nbrs c ∩ G.targets) \ covered

/-- ratio = weight / count (line 115). -/
def candRatio (G : CovGraph) (covered : Finset ℕ) (c : ℕ) : ℚ :=
  G.weight c / ((newCover G covered c).card : ℚ)

/-- One step of the inner candidate scan (lines 102-121): selected candidates
are skipped, candidates with count = 0 are skipped, and a strictly smaller
ratio replaces the best; the accumulator none models
best_ratio = inf / made_progress = False. -/
def scanStep (G : CovGraph) (selected : List ℕ) (covered : Finset ℕ)
    (acc : Option (ℕ × ℚ × Finset ℕ)) (cand : ℕ) : Option (ℕ × ℚ × Finset ℕ) :=
  if cand ∈ selected then acc
  else if 0 < (newCover G covered cand).card then
    match acc with
    | none => some (cand, candRatio G covered cand, newCover G covered cand)
    | some (b, br, bc) =>
      if candRatio G covered cand < br then
        some (cand, candRatio G covered cand, newCover G covered cand)
      else some (b, br, bc)
  else acc

/-- The full inner scan over the candidate list in iteration order. -/
def findBest (G : CovGraph) (selected : List ℕ) (covered : Finset ℕ) :
    Option (ℕ × ℚ × Finset ℕ) :=
  G.candidates.foldl (scanStep G selected covered) none

/-- The while-loop of optimize_sites (lines 91-127). Each iteration selects a
not-yet-selected candidate, so candidates.length + 1 units of fuel always let
the loop reach its own exit conditions. -/
def greedyLoop (G : CovGraph) : ℕ → List ℕ → Finset ℕ → List ℕ × Finset ℕ
  | 0, selected, covered => (selected, covered)
  | fuel + 1, selected, covered =>
    if covered.card < G.targets.card then
      match findBest G selected covered with
      | none => (selected, covered)
      | some (b, _, bc) => greedyLoop G fuel (selected ++ [b]) (covered ∪ bc)
    else (selected, covered)

/-- optimize_sites from network_planner.py: the selected candidates in
selection order (the code returns their data records; we return their ids)
and len(covered) / len(universe) if universe else 0. -/
def optimize_sites (G : CovGraph) : List ℕ × ℚ :=
  let r := greedyLoop G (G.candidates.length + 1) [] ∅
  (r.1, if G.targets = ∅ then 0 else (r.2.card : ℚ) / (G.targets.card : ℚ))

/-- The candidates the round can pick: not yet selected and covering at least
one uncovered target, in candidate iteration order. -/
def eligList (G : CovGraph) (selected : List ℕ) (covered : Finset ℕ) : List ℕ :=
  G.candidates.filter (fun c => decide (c ∉ selected ∧ 0 < (newCover G covered c).card))

/-- The first minimizer of candRatio in b :: l (earliest wins on ties). -/
def firstMinFrom (G : CovGraph) (covered : Finset ℕ) : ℕ → List ℕ → ℕ
  | b, [] => b
  | b, c :: cs =>
    firstMinFrom G covered (if candRatio G covered c < candRatio G covered b then c else b) cs

theorem scanStep_not_elig {G : CovGraph} {selected : List ℕ} {covered : Finset ℕ} {c : ℕ}
    (h : ¬(c ∉ selected ∧ 0 < (newCover G covered c).card))
    (acc : Option (ℕ × ℚ × Finset ℕ)) : scanStep G selected covered acc c = acc := by
  unfold scanStep
  by_cases h1 : c ∈ selected
  · rw [if_pos h1]
  · rw [if_neg h1, if_neg (by tauto)]

theorem scanStep_elig_none {G : CovGraph} {selected : List ℕ} {covered : Finset ℕ} {c : ℕ}
    (h1 : c ∉ selected) (h2 : 0 < (newCover G covered c).card) :
    scanStep G selected covered none c =
      some (c, candRatio G covered c, newCover G covered c) := by
  unfold scanStep
  rw [if_neg h1, if_pos h2]

theorem scanStep_elig_some {G : CovGraph} {selected : List ℕ} {covered : Finset ℕ} {c b : ℕ}
    {br : ℚ} {bc : Finset ℕ} (h1 : c ∉ selected) (h2 : 0 < (newCover G covered c).card) :
    scanStep G selected covered (some (b, br, bc)) c =
      if candRatio G covered c < br then
        some (c, candRatio G covered c, newCover G covered c)
      else some (b, br, bc) := by
  unfold scanStep
  rw [if_neg h1, if_pos h2]

theorem foldl_scan_eq_filter (G : CovGraph) (selected : List ℕ) (covered : Finset ℕ) :
    ∀ (l : List ℕ) (acc : Option (ℕ × ℚ × Finset ℕ)),
    l.foldl (scanStep G selected covered) acc =
      (l.filter (fun c => decide (c ∉ selected ∧ 0 < (newCover G covered c).card))).foldl
        (scanStep G selected covered) acc := by
  intro l
  induction l with
  | nil => intro acc; rfl
  | cons c t ih =>
    intro acc
    by_cases h : c ∉ selected ∧ 0 < (newCover G covered c).card
    · rw [List.foldl_cons, List.filter_cons, if_pos (by simpa using h), List.foldl_cons]
      exact ih _
    · rw [List.foldl_cons, scanStep_not_elig h, List.filter_cons,
        if_neg (by simpa using h)]
      exact ih _

theorem foldl_scan_some (G : CovGraph) (selected : List ℕ) (covered : Finset ℕ) :
    ∀ (l : List ℕ) (b : ℕ),
    (∀ c ∈ l, c ∉ selected ∧ 0 < (newCover G covered c).card) →
    l.foldl (scanStep G selected covered)
        (some (b, candRatio G covered b, newCover G covered b)) =
      some (firstMinFrom G covered b l, candRatio G covered (firstMinFrom G covered b l),
        newCover G covered (firstMinFrom G covered b l)) := by
  intro l
  induction l with
  | nil => intro b _; rfl
  | cons c t ih =>
    intro b h
    obtain ⟨hc1, hc2⟩ := h c (List.mem_cons_self c t)
    rw [List.foldl_cons, scanStep_elig_some hc1 hc2]
    have ht : ∀ x ∈ t, x ∉ selected ∧ 0 < (newCover G covered x).card :=
      fun x hx => h x (List.mem_cons_of_mem c hx)
    have hstep : firstMinFrom G covered b (c :: t) =
        firstMinFrom G covered
          (if candRatio G covered c < candRatio G covered b then c else b) t := rfl
    by_cases hr : candRatio G covered c < candRatio G covered b
    · rw [if_pos hr, hstep, if_pos hr]
      exact ih c ht
    · rw [if_neg hr, hstep, if_neg hr]
      exact ih b ht

theorem elig_of_mem_eligList {G : CovGraph} {selected : List ℕ} {covered : Finset ℕ} {c : ℕ}
    (h : c ∈ eligList G selected covered) :
    c ∉ selected ∧ 0 < (newCover G covered c).card := by
  unfold eligList at h
  rw [List.mem_filter] at h
  simpa using h.2

theorem firstMinFrom_min (G : CovGraph) (covered : Finset ℕ) :
    ∀ (l : List ℕ) (b : ℕ), ∀ c ∈ b :: l,
      candRatio G covered (firstMinFrom G covered b l) ≤ candRatio G covered c := by
  intro l
  induction l with
  | nil =>
    intro b c hc
    rw [List.mem_singleton] at hc
    subst hc
    exact le_refl _
  | cons x xs ih =>
    intro b c hc
    have hstep : firstMinFrom G covered b (x :: xs) =
        firstMinFrom G covered
          (if candRatio G covered x < candRatio G covered b then x else b) xs := rfl
    rcases List.mem_cons.1 hc with rfl | hc2
    · by_cases hr : candRatio G covered x < candRatio G covered c
      · rw [hstep, if_pos hr]
        exact le_trans (ih x x (List.mem_cons_self x xs)) hr.le
      · rw [hstep, if_neg hr]
        exact ih c c (List.mem_cons_self c xs)
    · rcases List.mem_cons.1 hc2 with rfl | hc3
      · by_cases hr : candRatio G covered c < candRatio G covered b
        · rw [hstep, if_pos hr]
          exact ih c c (List.mem_cons_self c xs)
        · rw [hstep, if_neg hr]
          exact le_trans (ih b b (List.mem_cons_self b xs)) (not_lt.1 hr)
      · by_cases hr : candRatio G covered x < candRatio G covered b
        · rw [hstep, if_pos hr]
          exact ih x c (List.mem_cons_of_mem x hc3)
        · rw [hstep, if_neg hr]
          exact ih b c (List.mem_cons_of_mem b hc3)

theorem firstMinFrom_split (G : CovGraph) (covered : Finset ℕ) :
    ∀ (l : List ℕ) (b : ℕ),
    ∃ l1 l2, b :: l = l1 ++ firstMinFrom G covered b l :: l2 ∧
      ∀ c ∈ l1, candRatio G covered (firstMinFrom G covered b l) < candRatio G covered c := by
  intro l
  induction l with
  | nil =>
    intro b
    exact ⟨[], [], rfl, by simp⟩
  | cons x xs ih =>
    intro b
    have hstep : firstMinFrom G covered b (x :: xs) =
        firstMinFrom G covered
          (if candRatio G covered x < candRatio G covered b then x else b) xs := rfl
    by_cases hr : candRatio G covered x < candRatio G covered b
    · rw [hstep, if_pos hr]
      obtain ⟨l1, l2, heq, hlt⟩ := ih x
      refine ⟨b :: l1, l2, by rw [List.cons_append, ← heq], ?_⟩
      intro c hc
      rcases List.mem_cons.1 hc with rfl | hc2
      · exact lt_of_le_of_lt (firstMinFrom_min G covered xs x x (List.mem_cons_self x xs)) hr
      · exact hlt c hc2
    · rw [hstep, if_neg hr]
      obtain ⟨l1, l2, heq, hlt⟩ := ih b
      cases l1 with
      | nil =>
        simp only [List.nil_append] at heq
        injection heq with h1 h2
        refine ⟨[], x :: xs, ?_, by simp⟩
        simp only [List.nil_append]
        rw [← h1]
      | cons y ys =>
        rw [List.cons_append] at heq
        injection heq with h1 h2
        subst h1
        refine ⟨b :: x :: ys, l2, ?_, ?_⟩
        · simp only [List.cons_append]
          rw [← h2]
        · intro c hc
          rcases List.mem_cons.1 hc with rfl | hc2
          · exact hlt c (List.mem_cons_self c ys)
          · rcases List.mem_cons.1 hc2 with rfl | hc3
            · exact lt_of_lt_of_le (hlt b (List.mem_cons_self b ys)) (not_lt.1 hr)
            · exact hlt c (List.mem_cons_of_mem b hc3)

theorem findBest_none (G : CovGraph) (selected : List ℕ) (covered : Finset ℕ)
    (h : eligList G selected covered = []) : findBest G selected covered = none := by
  unfold findBest
  rw [foldl_scan_eq_filter]
  unfold eligList at h
  rw [h]
  rfl

theorem findBest_eq_firstMin (G : CovGraph) (selected : List ℕ) (covered : Finset ℕ)
    (e : ℕ) (es : List ℕ) (he : eligList G selected covered = e :: es) :
    findBest G selected covered =
      some (firstMinFrom G covered e es, candRatio G covered (firstMinFrom G covered e es),
        newCover G covered (firstMinFrom G covered e es)) := by
  have he_mem : e ∈ eligList G selected covered := by
    rw [he]
    exact List.mem_cons_self e es
  have hel := elig_of_mem_eligList he_mem
  unfold findBest
  rw [foldl_scan_eq_filter]
  unfold eligList at he
  rw [he, List.foldl_cons, scanStep_elig_none hel.1 hel.2]
  apply foldl_scan_some
  intro c hc
  apply elig_of_mem_eligList
  show c ∈ eligList G selected covered
  unfold eligList
  rw [he]
  exact List.mem_cons_of_mem e hc

/-- Claim C6: in every round of optimize_sites' greedy loop with any reached
state (selected, covered), if some not-yet-selected candidate covers an
uncovered target then the scan returns a candidate b minimizing
weight / newly_covered_count over all such candidates, every eligible
candidate strictly earlier than b in iteration order has a strictly larger
ratio (so ties are won by the earliest candidate), and the loop round
selects exactly b, covering its new targets. -/
theorem optimize_sites_greedy_round (G : CovGraph) (selected : List ℕ)
    (covered : Finset ℕ) (hne : eligList G selected covered ≠ []) :
    ∃ b l1 l2,
      findBest G selected covered =
        some (b, candRatio G covered b, newCover G covered b) ∧
      eligList G selected covered = l1 ++ b :: l2 ∧
      (∀ c ∈ eligList G selected covered, candRatio G covered b ≤ candRatio G covered c) ∧
      (∀ c ∈ l1, candRatio G covered b < candRatio G covered c) ∧
      (∀ fuel : ℕ, greedyLoop G (fuel + 1) selected covered =
        if covered.card < G.targets.card then
          greedyLoop G fuel (selected ++ [b]) (covered ∪ newCover G covered b)
        else (selected, covered)) := by
  obtain ⟨e, es, he⟩ : ∃ e es, eligList G selected covered = e :: es := by
    cases h : eligList G selected covered with
    | nil => exact absurd h hne
    | cons e es => exact ⟨e, es, rfl⟩
  have hfb := findBest_eq_firstMin G selected covered e es he
  obtain ⟨l1, l2, hsplit, hlt⟩ := firstMinFrom_split G covered es e
  refine ⟨firstMinFrom G covered e es, l1, l2, hfb, ?_, ?_, hlt, ?_⟩
  · rw [he]
    exact hsplit
  · intro c hc
    rw [he] at hc
    exact firstMinFrom_min G covered es e c hc
  · intro fuel
    show greedyLoop G (fuel + 1) selected covered = _
    rw [greedyLoop]
    by_cases hcond : covered.card < G.targets.card
    · rw [if_pos hcond, if_pos hcond, hfb]
    · rw [if_neg hcond, if_neg hcond]

/-- A two-candidate coverage graph: candidate 5 covers target 1 at ratio 1,
candidate 7 covers targets 1 and 2 at ratio 1/2. -/
def covGraphEx : CovGraph where
  candidates := [5, 7]
  weight := fun _ => 1
  nbrs := fun c => if c = 5 then {1} else if c = 7 then {1, 2} else ∅
  targets := {1, 2}

/-- Witness for Claim C6: the greedy round property instantiated on the
concrete two-candidate graph with nothing selected or covered. -/
theorem optimize_sites_greedy_round_witness :
    ∃ b l1 l2,
      findBest covGraphEx [] ∅ =
        some (b, candRatio covGraphEx ∅ b, newCover covGraphEx ∅ b) ∧
      eligList covGraphEx [] ∅ = l1 ++ b :: l2 ∧
      (∀ c ∈ eligList covGraphEx [] ∅, candRatio covGraphEx ∅ b ≤ candRatio covGraphEx ∅ c) ∧
      (∀ c ∈ l1, candRatio covGraphEx ∅ b < candRatio covGraphEx ∅ c) ∧
      (∀ fuel : ℕ, greedyLoop covGraphEx (fuel + 1) [] ∅ =
        if Finset.card (∅ : Finset ℕ) < covGraphEx.targets.card then
          greedyLoop covGraphEx fuel ([] ++ [b]) (∅ ∪ newCover covGraphEx ∅ b)
        else ([], ∅)) :=
  optimize_sites_greedy_round covGraphEx [] ∅ (by decide)

/-! ### Claim C7: coverage fraction -/

/-- The targets covered by a list of selected candidates: the union of their
neighbor sets intersected with the universe. -/
def coveredBy (G : CovGraph) (sel : List ℕ) : Finset ℕ :=
  sel.foldl (fun acc c => acc ∪ (G.nbrs c ∩ G.targets)) ∅

theorem coveredBy_append (G : CovGraph) (sel : List ℕ) (b : ℕ) :
    coveredBy G (sel ++ [b]) = coveredBy G sel ∪ (G.nbrs b ∩ G.targets) := by
  unfold coveredBy
  rw [List.foldl_append]
  rfl

theorem findBest_shape {G : CovGraph} {selected : List ℕ} {covered : Finset ℕ}
    {b : ℕ} {r : ℚ} {bc : Finset ℕ}
    (h : findBest G selected covered = some (b, r, bc)) :
    r = candRatio G covered b ∧ bc = newCover G covered b := by
  cases he : eligList G selected covered with
  | nil =>
    rw [findBest_none G selected covered he] at h
    exact absurd h (by simp)
  | cons e es =>
    rw [findBest_eq_firstMin G selected covered e es he] at h
    simp only [Option.some.injEq, Prod.mk.injEq] at h
    obtain ⟨hb, hr, hc⟩ := h
    subst hb
    exact ⟨hr.symm, hc.symm⟩

theorem greedyLoop_covered (G : CovGraph) :
    ∀ (fuel : ℕ) (sel : List ℕ) (cov : Finset ℕ), coveredBy G sel = cov →
    coveredBy G (greedyLoop G fuel sel cov).1 = (greedyLoop G fuel sel cov).2 := by
  intro fuel
  induction fuel with
  | zero => intro sel cov h; exact h
  | succ n ih =>
    intro sel cov h
    rw [greedyLoop]
    by_cases hcond : cov.card < G.targets.card
    · rw [if_pos hcond]
      cases hfb : findBest G sel cov with
      | none => exact h
      | some t =>
        obtain ⟨b, r, bc⟩ := t
        obtain ⟨hr, hbc⟩ := findBest_shape hfb
        apply ih
        rw [coveredBy_append, h, hbc]
        unfold newCover
        rw [Finset.union_sdiff_self_eq_union]
    · rw [if_neg hcond]
      exact h

/-- Claim C7: optimize_sites on an empty target universe returns the empty
selection and coverage fraction 0 (the Python conditional expression, not a
division by zero); on a non-empty universe the returned fraction is the
number of covered targets (union of the selected candidates' neighbor sets
intersected with the universe) divided by the universe size. -/
theorem optimize_sites_coverage_fraction (G : CovGraph) :
    (G.targets = ∅ → optimize_sites G = ([], 0)) ∧
    (G.targets ≠ ∅ → (optimize_sites G).2 =
      ((coveredBy G (optimize_sites G).1).card : ℚ) / (G.targets.card : ℚ)) := by
  have hloop := greedyLoop_covered G (G.candidates.length + 1) [] ∅ rfl
  constructor
  · intro h
    have hcard : G.targets.card = 0 := by rw [h]; rfl
    unfold optimize_sites
    rw [greedyLoop]
    rw [if_neg (by simp [hcard])]
    simp [h]
  · intro h
    show (if G.targets = ∅ then 0
        else ((greedyLoop G (G.candidates.length + 1) [] ∅).2.card : ℚ) /
          (G.targets.card : ℚ)) =
      ((coveredBy G (greedyLoop G (G.candidates.length + 1) [] ∅).1).card : ℚ) /
        (G.targets.card : ℚ)
    rw [if_neg h, hloop]

/-- A one-candidate coverage graph: candidate 0 covers the single target 3. -/
def covGraphOne : CovGraph where
  candidates := [0]
  weight := fun _ => 1
  nbrs := fun _ => {3}
  targets := {3}

/-- Witness for Claim C7: on the one-candidate graph the universe is
non-empty and the returned fraction is covered count over universe size. -/
theorem optimize_sites_coverage_fraction_witness :
    covGraphOne.targets ≠ ∅ ∧
    (optimize_sites covGraphOne).2 =
      ((coveredBy covGraphOne (optimize_sites covGraphOne).1).card : ℚ) /
        (covGraphOne.targets.card : ℚ) :=
  ⟨by decide, (optimize_sites_coverage_fraction covGraphOne).2 (by decide)⟩

/-! ## rf_worker.py: the sieve (optimize_location_task) -/

/-- Flattened 16x16 elevation grid lookup after reshape((16, 16)) row-major:
elevs[r, c] is flat[r * n + c]. All grids reaching this code have exactly
n * n entries, so the getD default is never hit there. -/
def gridGet (g : List ℤ) (n r c : ℕ) : ℤ := g.getD (r * n + c) 0

/-- Row (or column) indices of the size-3 window centered at r, as produced
by scipy.ndimage.maximum_filter(size=3) with its default reflect boundary:
at an edge the reflected index duplicates the edge cell, so the set of cells
the window maximum ranges over is the 3-window clipped to the grid. -/
def windowIdx (n r : ℕ) : List ℕ :=
  (List.range n).filter (fun j => decide (r ≤ j + 1 ∧ j ≤ r + 1))

/-- The sliding-window maximum of size 3 centered at (r, c):
maximum_filter(elevs, size=3)[r, c]. -/
def localMax (g : List ℤ) (n r c : ℕ) : ℤ :=
  (windowIdx n r).foldl (fun m j =>
    (windowIdx n c).foldl (fun m2 k => max m2 (gridGet g n j k)) m) (gridGet g n r c)

/-- np.argwhere(elevs == maximum_filter(elevs, size=3)) in row-major order:
the cells whose value equals the window maximum centered on them
(rf_worker.py lines 224-228). -/
def peakCells (g : List ℤ) (n : ℕ) : List (ℕ × ℕ) :=
  ((List.range n).flatMap (fun r => (List.range n).map (fun c => (r, c)))).filter
    (fun rc => decide (gridGet g n rc.1 rc.2 = localMax g n rc.1 rc.2))

/-- mercantile.bounds output for a tile (south, north, west, east), modelled
as exact rationals. -/
structure TBounds where
  south : ℚ
  north : ℚ
  west : ℚ
  east : ℚ

/-- lats = np.linspace(bounds.south, bounds.north, 16) and the west-east
analogue (rf_worker.py lines 235-236), over exact rationals. -/
def linQ (a b : ℚ) (n k : ℕ) : ℚ :=
  if n ≤ 1 then a else a + (b - a) * k / ((n : ℚ) - 1)

/-- p_lat = lat_grid[r, c] where lat_grid, lon_grid = np.meshgrid(lats, lons)
with default xy indexing: lat_grid[r, c] = lats[c] (the column index selects
the latitude). -/
def mapped_lat (b : TBounds) (r c : ℕ) : ℚ := linQ b.south b.north 16 c

/-- p_lon = lon_grid[r, c] = lons[r] under the same meshgrid convention. -/
def mapped_lon (b : TBounds) (r c : ℕ) : ℚ := linQ b.west b.east 16 r

/-- A web-mercator tile id (x, y at the fixed zoom). -/
structure TileId where
  x : ℕ
  y : ℕ
deriving DecidableEq

/-- The candidate dictionary appended per peak cell (rf_worker.py 271-277). -/
structure SiteCand where
  lat : ℚ
  lon : ℚ
  elev : ℤ
  tile_x : ℕ
  tile_y : ℕ
deriving DecidableEq

/-- The candidates one well-formed (256-sample) tile contributes: each peak
cell mapped back to lat/lon and kept only when inside the query box. -/
def processTile (minLat minLon maxLat maxLon : ℚ) (tb : TileId → TBounds)
    (t : TileId) (grid : List ℤ) : List SiteCand :=
  (peakCells grid 16).filterMap (fun rc =>
    let p_lat := mapped_lat (tb t) rc.1 rc.2
    let p_lon := mapped_lon (tb t) rc.1 rc.2
    if minLat ≤ p_lat ∧ p_lat ≤ maxLat ∧ minLon ≤ p_lon ∧ p_lon ≤ maxLon then
      some { lat := p_lat, lon := p_lon, elev := gridGet grid 16 rc.1 rc.2,
             tile_x := t.x, tile_y := t.y }
    else none)

/-- The per-tile loop of optimize_location_task (lines 199-277): a tile with
no data or no elevation key is skipped (continue); a tile whose elevation
list cannot be reshaped to 16x16 raises, which aborts the loop and is caught
by the surrounding try/except. -/
def scanTiles (minLat minLon maxLat maxLon : ℚ) (tb : TileId → TBounds)
    (td : TileId → Option (List ℤ)) : List TileId → Except String (List SiteCand)
  | [] => Except.ok []
  | t :: ts =>
    match td t with
    | none => scanTiles minLat minLon maxLat maxLon tb td ts
    | some l =>
      if l.length = 256 then
        match scanTiles minLat minLon maxLat maxLon tb td ts with
        | Except.ok rest =>
          Except.ok (processTile minLat minLon maxLat maxLon tb t l ++ rest)
        | Except.error e => Except.error e
      else Except.error "cannot reshape elevation array"

/-- The result value of optimize_location_task: a status dictionary. -/
inductive SieveRes where
  | ok : List (SiteCand × ℚ) → SieveRes
  | err : String → SieveRes
deriving DecidableEq

/-- optimize_location_task from rf_worker.py. The mercantile tile enumeration
for the bounding box and the tile-center data fetch through TileManager are
passed as the tiles list, the bounds map tb and the data map td; freq_mhz and
height_m are accepted and unused as in the source. The outer try/except turns
the reshape exception into an error-status value. -/
def optimize_location_task (tiles : List TileId) (tb : TileId → TBounds)
    (td : TileId → Option (List ℤ))
    (min_lat min_lon max_lat max_lon freq_mhz height_m : ℚ) : SieveRes :=
  if tiles = [] then SieveRes.err "No tiles found for area"
  else
    match scanTiles min_lat min_lon max_lat max_lon tb td tiles with
    | Except.error e => SieveRes.err e
    | Except.ok all_candidates =>
      let sorted := all_candidates.mergeSort (fun a b => decide (b.elev ≤ a.elev))
      let top_candidates := sorted.take 20
      let scored := top_candidates.map (fun c => (c, (c.elev : ℚ) * 1))
      let scored2 := scored.mergeSort (fun a b => decide (b.2 ≤ a.2))
      SieveRes.ok (scored2.take 3)

theorem mem_peakCells {g : List ℤ} {n : ℕ} {r c : ℕ} :
    (r, c) ∈ peakCells g n ↔
      r < n ∧ c < n ∧ gridGet g n r c = localMax g n r c := by
  unfold peakCells
  rw [List.mem_filter]
  simp only [List.mem_flatMap, List.mem_map, List.mem_range, decide_eq_true_eq]
  constructor
  · rintro ⟨⟨r', hr', c', hc', heq⟩, hpk⟩
    cases heq
    exact ⟨hr', hc', hpk⟩
  · rintro ⟨hr, hc, hpk⟩
    exact ⟨⟨r, hr, c, hc, rfl⟩, hpk⟩

/-- The 16x16 test grid: all zero except value 100 at row 8, column 8
(flattened row-major, index 8*16+8). -/
def testGrid : List ℤ :=
  (List.range 256).map (fun k => if k = 8 * 16 + 8 then 100 else 0)

set_option maxRecDepth 100000 in
set_option maxHeartbeats 2000000 in
/-- Claim C8 (amended): on the all-zero 16x16 grid with a single 100 peak at
row 8 col 8, the size-3 window-maximum mask flags a cell iff its value equals
the window maximum centered on it: that is the peak cell together with every
cell at Chebyshev distance at least 2 from the peak (all the flat zero cells
away from the peak), 248 cells in total rather than the peak alone; the
mapped lat/lon of any cell, in particular the peak, lies inside the tile's
bounding rectangle (shown for the concrete bounds 10..11 x 20..21). -/
theorem sieve_peak_mask_characterization :
    (∀ r : ℕ, r < 16 → ∀ c : ℕ, c < 16 →
      ((r, c) ∈ peakCells testGrid 16 ↔
        ((r = 8 ∧ c = 8) ∨ ¬(7 ≤ r ∧ r ≤ 9 ∧ 7 ≤ c ∧ c ≤ 9)))) ∧
    (10 ≤ mapped_lat ⟨10, 11, 20, 21⟩ 8 8 ∧ mapped_lat ⟨10, 11, 20, 21⟩ 8 8 ≤ 11 ∧
     20 ≤ mapped_lon ⟨10, 11, 20, 21⟩ 8 8 ∧ mapped_lon ⟨10, 11, 20, 21⟩ 8 8 ≤ 21) := by
  constructor
  · have hd : ∀ r : ℕ, r < 16 → ∀ c : ℕ, c < 16 →
        ((gridGet testGrid 16 r c = localMax testGrid 16 r c) ↔
          ((r = 8 ∧ c = 8) ∨ ¬(7 ≤ r ∧ r ≤ 9 ∧ 7 ≤ c ∧ c ≤ 9))) := by decide
    intro r hr c hc
    rw [mem_peakCells]
    constructor
    · rintro ⟨_, _, heq⟩
      exact (hd r hr c hc).1 heq
    · intro hx
      exact ⟨hr, hc, (hd r hr c hc).2 hx⟩
  · refine ⟨?_, ?_, ?_, ?_⟩ <;> norm_num [mapped_lat, mapped_lon, linQ]

/-- Witness for Claim C8 (amended): the characterization instantiated at the
flat corner cell (0, 0), which the mask flags although it is not the peak. -/
theorem sieve_peak_mask_characterization_witness :
    (0, 0) ∈ peakCells testGrid 16 ↔
      ((0 = 8 ∧ 0 = 8) ∨ ¬(7 ≤ 0 ∧ 0 ≤ 9 ∧ 7 ≤ 0 ∧ 0 ≤ 9)) :=
  sieve_peak_mask_characterization.1 0 (by norm_num) 0 (by norm_num)

set_option maxRecDepth 100000 in
set_option maxHeartbeats 2000000 in
/-- Claim C8 (counterexample): the mask flags 248 of the 256 cells, not just
the single peak; in particular the corner cell (0, 0) is flagged although its
elevation 0 differs from the grid maximum 100 at (8, 8). -/
theorem sieve_peak_mask_flat_cells_cex :
    (peakCells testGrid 16).length = 248 ∧
    (0, 0) ∈ peakCells testGrid 16 ∧
    gridGet testGrid 16 0 0 ≠ gridGet testGrid 16 8 8 := by
  refine ⟨by decide, ?_, by decide⟩
  rw [mem_peakCells]
  refine ⟨by norm_num, by norm_num, by decide⟩

theorem scanTiles_skip_none (min_lat min_lon max_lat max_lon : ℚ)
    (tb : TileId → TBounds) (td : TileId → Option (List ℤ)) (t : TileId)
    (ts : List TileId) (h : td t = none) :
    scanTiles min_lat min_lon max_lat max_lon tb td (t :: ts) =
      scanTiles min_lat min_lon max_lat max_lon tb td ts := by
  rw [scanTiles, h]

theorem scanTiles_malformed (min_lat min_lon max_lat max_lon : ℚ)
    (tb : TileId → TBounds) (td : TileId → Option (List ℤ)) (t : TileId)
    (ts : List TileId) (l : List ℤ) (h : td t = some l) (hlen : l.length ≠ 256) :
    scanTiles min_lat min_lon max_lat max_lon tb td (t :: ts) =
      Except.error "cannot reshape elevation array" := by
  rw [scanTiles, h]
  simp only [if_neg hlen]

theorem task_malformed (tb : TileId → TBounds) (td : TileId → Option (List ℤ))
    (min_lat min_lon max_lat max_lon freq_mhz height_m : ℚ) (t : TileId)
    (ts : List TileId) (l : List ℤ) (h : td t = some l) (hlen : l.length ≠ 256) :
    optimize_location_task (t :: ts) tb td min_lat min_lon max_lat max_lon
      freq_mhz height_m = SieveRes.err "cannot reshape elevation array" := by
  unfold optimize_location_task
  rw [if_neg (List.cons_ne_nil t ts),
    scanTiles_malformed min_lat min_lon max_lat max_lon tb td t ts l h hlen]

/-- Claim C9 (amended): optimize_location_task always returns a status value
(ok or error, never an uncaught exception): an empty tile list yields the
structured "No tiles found for area" error; a tile whose data is absent (no
dictionary or no elevation key) contributes nothing and the scan continues
with the remaining tiles; but a tile whose elevation list has the wrong
sample count raises in reshape, which the outer handler converts into an
error-status result that aborts the scan instead of skipping the tile. -/
theorem optimize_location_never_raises (tiles : List TileId) (tb : TileId → TBounds)
    (td : TileId → Option (List ℤ)) (min_lat min_lon max_lat max_lon freq_mhz height_m : ℚ) :
    ((∃ locs, optimize_location_task tiles tb td min_lat min_lon max_lat max_lon
        freq_mhz height_m = SieveRes.ok locs) ∨
     (∃ msg, optimize_location_task tiles tb td min_lat min_lon max_lat max_lon
        freq_mhz height_m = SieveRes.err msg)) ∧
    (tiles = [] → optimize_location_task tiles tb td min_lat min_lon max_lat max_lon
        freq_mhz height_m = SieveRes.err "No tiles found for area") ∧
    (∀ t ts, td t = none →
      scanTiles min_lat min_lon max_lat max_lon tb td (t :: ts) =
        scanTiles min_lat min_lon max_lat max_lon tb td ts) ∧
    (∀ t ts l, td t = some l → l.length ≠ 256 →
      scanTiles min_lat min_lon max_lat max_lon tb td (t :: ts) =
        Except.error "cannot reshape elevation array") ∧
    (∀ t ts l, tiles = t :: ts → td t = some l → l.length ≠ 256 →
      optimize_location_task tiles tb td min_lat min_lon max_lat max_lon
        freq_mhz height_m = SieveRes.err "cannot reshape elevation array") := by
  refine ⟨?_, ?_, ?_, ?_, ?_⟩
  · unfold optimize_location_task
    by_cases h : tiles = []
    · rw [if_pos h]
      exact Or.inr ⟨_, rfl⟩
    · rw [if_neg h]
      cases hscan : scanTiles min_lat min_lon max_lat max_lon tb td tiles with
      | error e => exact Or.inr ⟨e, rfl⟩
      | ok cands => exact Or.inl ⟨_, rfl⟩
  · intro h
    unfold optimize_location_task
    rw [if_pos h]
  · intro t ts h
    exact scanTiles_skip_none min_lat min_lon max_lat max_lon tb td t ts h
  · intro t ts l h hlen
    exact scanTiles_malformed min_lat min_lon max_lat max_lon tb td t ts l h hlen
  · intro t ts l htiles h hlen
    subst htiles
    exact task_malformed tb td min_lat min_lon max_lat max_lon freq_mhz height_m
      t ts l h hlen

/-- Concrete tile bounds map for the sieve scenarios. -/
def sieveTB : TileId → TBounds := fun _ => ⟨0, 1, 0, 1⟩

/-- Concrete tile data map: tile (0,0) holds a malformed 255-sample
elevation list, every other tile has no data. -/
def sieveTD : TileId → Option (List ℤ) := fun t =>
  if t.x = 0 ∧ t.y = 0 then some (List.replicate 255 0) else none

/-- Witness for Claim C9 (amended): the zero-tile case returns the
structured error value. -/
theorem optimize_location_never_raises_witness :
    optimize_location_task [] sieveTB sieveTD 0 0 1 1 0 0 =
      SieveRes.err "No tiles found for area" :=
  (optimize_location_never_raises [] sieveTB sieveTD 0 0 1 1 0 0).2.1 rfl

/-- Claim C9 (counterexample): a malformed tile (255 samples) followed by a
skippable tile makes the whole task return an error status; the scan does
not continue to the remaining tiles, which on their own would produce a
successful (empty) result. -/
theorem optimize_location_malformed_aborts_cex :
    optimize_location_task [⟨0, 0⟩, ⟨0, 1⟩] sieveTB sieveTD 0 0 1 1 0 0 =
      SieveRes.err "cannot reshape elevation array" ∧
    optimize_location_task [⟨0, 1⟩] sieveTB sieveTD 0 0 1 1 0 0 = SieveRes.ok [] := by
  constructor
  · have hd : sieveTD ⟨0, 0⟩ = some (List.replicate 255 0) := rfl
    have hlen : (List.replicate 255 (0 : ℤ)).length ≠ 256 := by
      rw [List.length_replicate]
      omega
    exact task_malformed sieveTB sieveTD 0 0 1 1 0 0 ⟨0, 0⟩ [⟨0, 1⟩]
      (List.replicate 255 0) hd hlen
  · unfold optimize_location_task
    rw [if_neg (by simp)]
    have hnone : sieveTD ⟨0, 1⟩ = none := rfl
    have hscan : scanTiles 0 0 1 1 sieveTB sieveTD [⟨0, 1⟩] = Except.ok [] := by
      rw [scanTiles, hnone]
      rfl
    rw [hscan]
    simp [List.mergeSort_nil]

/-! ## tile_manager.py: get_elevation and _extract_elevation_from_tile -/

/-- np.clip on scalars. -/
def np_clip (x lo hi : ℚ) : ℚ := min (max x lo) hi

/-- i = int(np.floor(np.clip(u, 0, 15))) for u mapped from latitude
(tile_manager.py lines 184-190); the clipped value is nonnegative, so
Python's int() is the floor and toNat is exact. -/
def uIndex (lat : ℚ) (b : TBounds) : ℕ :=
  (⌊np_clip ((lat - b.south) / (b.north - b.south) * 15) 0 15⌋).toNat

/-- j = int(np.floor(np.clip(v, 0, 15))) for v mapped from longitude. -/
def vIndex (lon : ℚ) (b : TBounds) : ℕ :=
  (⌊np_clip ((lon - b.west) / (b.east - b.west) * 15) 0 15⌋).toNat

/-- TileManager._extract_elevation_from_tile: bilinear interpolation over the
16x16 grid; absent data, a wrong sample count or degenerate tile bounds give
the neutral 0.0, and indices are clamped into [0, 15]. The row index of
grid[j, i] comes from the longitude (j) and the column from the latitude (i),
as in the source. -/
def extract_elevation_from_tile (data : Option (List ℚ)) (lat lon : ℚ)
    (b : TBounds) : ℚ :=
  match data with
  | none => 0
  | some elev =>
    if elev.length ≠ 256 then 0
    else if b.north = b.south ∨ b.east = b.west then 0
    else
      let u := np_clip ((lat - b.south) / (b.north - b.south) * 15) 0 15
      let v := np_clip ((lon - b.west) / (b.east - b.west) * 15) 0 15
      let i := uIndex lat b
      let j := vIndex lon b
      let u_ratio := u - i
      let v_ratio := v - j
      let i_next := min (i + 1) 15
      let j_next := min (j + 1) 15
      let p00 := elev.getD (j * 16 + i) 0
      let p10 := elev.getD (j * 16 + i_next) 0
      let p01 := elev.getD (j_next * 16 + i) 0
      let p11 := elev.getD (j_next * 16 + i_next) 0
      let val_j := p00 * (1 - u_ratio) + p10 * u_ratio
      let val_jnext := p01 * (1 - u_ratio) + p11 * u_ratio
      val_j * (1 - v_ratio) + val_jnext * v_ratio

/-- TileManager.get_elevation (lines 41-57): falsy tile data gives 0.0,
otherwise the bilinear extraction runs. The cache/fetch outcome is modelled
by the data argument (none stands for no data returned). -/
def get_elevation (data : Option (List ℚ)) (lat lon : ℚ) (b : TBounds) : ℚ :=
  match data with
  | none => 0
  | some _ => extract_elevation_from_tile data lat lon b

theorem uIndex_le (lat : ℚ) (b : TBounds) : uIndex lat b ≤ 15 := by
  unfold uIndex np_clip
  have hle : min (max ((lat - b.south) / (b.north - b.south) * 15) 0) 15 ≤ 15 :=
    min_le_right _ _
  have hfl : ⌊min (max ((lat - b.south) / (b.north - b.south) * 15) 0) 15⌋ ≤ (15 : ℤ) := by
    have := Int.floor_le_floor hle
    simpa using this
  omega

theorem vIndex_le (lon : ℚ) (b : TBounds) : vIndex lon b ≤ 15 := by
  unfold vIndex np_clip
  have hle : min (max ((lon - b.west) / (b.east - b.west) * 15) 0) 15 ≤ 15 :=
    min_le_right _ _
  have hfl : ⌊min (max ((lon - b.west) / (b.east - b.west) * 15) 0) 15⌋ ≤ (15 : ℤ) := by
    have := Int.floor_le_floor hle
    simpa using this
  omega

/-- Claim C10: get_elevation is total for rational coordinates: absent data,
a wrong sample count and degenerate tile bounds each give the neutral 0.0,
and in the bilinear branch the clamped row/column indices and their
successors stay in [0, 15], so the four flattened grid lookups
j*16+i, j*16+i_next, j_next*16+i, j_next*16+i_next are all below 256. -/
theorem get_elevation_total_clamped (data : Option (List ℚ)) (lat lon : ℚ)
    (b : TBounds) :
    (data = none → get_elevation data lat lon b = 0) ∧
    (∀ l, data = some l → l.length ≠ 256 → get_elevation data lat lon b = 0) ∧
    (b.north = b.south ∨ b.east = b.west → get_elevation data lat lon b = 0) ∧
    (uIndex lat b ≤ 15 ∧ vIndex lon b ≤ 15 ∧
     vIndex lon b * 16 + uIndex lat b < 256 ∧
     vIndex lon b * 16 + min (uIndex lat b + 1) 15 < 256 ∧
     min (vIndex lon b + 1) 15 * 16 + uIndex lat b < 256 ∧
     min (vIndex lon b + 1) 15 * 16 + min (uIndex lat b + 1) 15 < 256) := by
  have hu := uIndex_le lat b
  have hv := vIndex_le lon b
  refine ⟨?_, ?_, ?_, hu, hv, by omega, by omega, by omega, by omega⟩
  · intro h
    subst h
    rfl
  · intro l h hlen
    subst h
    show extract_elevation_from_tile (some l) lat lon b = 0
    simp only [extract_elevation_from_tile]
    rw [if_pos hlen]
  · intro h
    cases data with
    | none => rfl
    | some l =>
      show extract_elevation_from_tile (some l) lat lon b = 0
      simp only [extract_elevation_from_tile]
      by_cases hlen : l.length ≠ 256
      · rw [if_pos hlen]
      · rw [if_neg hlen, if_pos h]

/-- Witness for Claim C10: the absent-data default and the clamped indices at
a concrete coordinate and tile. -/
theorem get_elevation_total_clamped_witness :
    get_elevation none (1 / 2) (1 / 2) ⟨0, 1, 0, 1⟩ = 0 ∧
    uIndex (1 / 2) ⟨0, 1, 0, 1⟩ ≤ 15 ∧
    vIndex (1 / 2) ⟨0, 1, 0, 1⟩ * 16 + uIndex (1 / 2) ⟨0, 1, 0, 1⟩ < 256 :=
  ⟨(get_elevation_total_clamped none (1 / 2) (1 / 2) ⟨0, 1, 0, 1⟩).1 rfl,
   (get_elevation_total_clamped (some (List.replicate 256 5)) (1 / 2) (1 / 2)
      ⟨0, 1, 0, 1⟩).2.2.2.1,
   (get_elevation_total_clamped (some (List.replicate 256 5)) (1 / 2) (1 / 2)
      ⟨0, 1, 0, 1⟩).2.2.2.2.2.1⟩
